import Mathlib

/-!
Verification development for the subscription / referral bot
(`main.py`, `admin.py`, `referrals.py`, `pay.py`).

The SQLite store is modelled as lists of rows (one list per table).
Timestamps are modelled as integers counting minutes
(`datetime` instants; `timedelta(days = d)` becomes `d * 1440`).
ISO strings that are NULL, empty, or unparseable by `_parse_iso`
are collapsed into `Option.none`, and `Option Int` models a nullable
column.  Python's `int(x or 0)` null-coalescing read is `intOr0`.
Rows are addressed by their SQL primary key; an UPDATE touching the key
maps over every matching row, a SELECT ... fetchone takes the first.
-/

/-- `timedelta(days = d)` in minutes. -/
def tdDays (d : Int) : Int := d * 1440

/-- `CHECK`-less SQL `INTEGER` column read through Python `int(x or 0)`. -/
def intOr0 : Option Int → Int
  | none => 0
  | some n => n

/-- Row of the `subscriptions` table (presentation-only columns omitted).
The three flag columns carry `DEFAULT 0`, and every write in the
repository stores a literal `0` or `1`, so they are plain integers. -/
structure SubRow where
  telegram_id : Int
  purchased_at : Option Int
  period_days : Option Int
  expires_at : Option Int
  tariff : Option String
  warn_2d_sent : Int
  expired_sent : Int
  keys_deleted : Int
  deriving Repr, DecidableEq

/-- Row of the `users` table (name columns omitted). -/
structure UserRow where
  telegram_id : Int
  referrer_id : Option Int
  ref_bonus_awarded : Int
  first_paid : Int
  first_paid_at : Option Int
  deriving Repr, DecidableEq

/-- Row of the `payments` table (`pay.py`; screenshot/comment omitted). -/
structure PaymentRow where
  id : Int
  user_id : Int
  tariff : Option String
  status : String
  deriving Repr, DecidableEq

/-- Row of the `user_keys` table. -/
structure KeyRow where
  user_id : Int
  outline_key : Option String
  v2ray_key : Option String
  amnezia_key : Option String
  updated_at : Option Int
  updated_by : Option Int
  deriving Repr, DecidableEq

/-- The whole store. -/
structure St where
  users : List UserRow
  subs : List SubRow
  payments : List PaymentRow
  keysTable : List KeyRow
  deriving Repr, DecidableEq

/-- `SELECT ... FROM subscriptions WHERE telegram_id=? ... fetchone`. -/
def lookupSub (uid : Int) : List SubRow → Option SubRow
  | [] => none
  | r :: rs => if r.telegram_id = uid then some r else lookupSub uid rs

/-- `UPDATE subscriptions SET ... WHERE telegram_id=?`. -/
def updSub (uid : Int) (f : SubRow → SubRow) (l : List SubRow) : List SubRow :=
  l.map fun r => if r.telegram_id = uid then f r else r

/-- `SELECT ... FROM users WHERE telegram_id=? ... fetchone`. -/
def lookupUser (uid : Int) : List UserRow → Option UserRow
  | [] => none
  | r :: rs => if r.telegram_id = uid then some r else lookupUser uid rs

/-- `UPDATE users SET ... WHERE telegram_id=?`. -/
def updUser (uid : Int) (f : UserRow → UserRow) (l : List UserRow) : List UserRow :=
  l.map fun r => if r.telegram_id = uid then f r else r

/-- `BONUS_DAYS_FOR_REFERRER` (admin.py / referrals.py). -/
def BONUS_DAYS_FOR_REFERRER : Int := 14

/-- `TRIAL_DAYS_FOR_INVITEE` (referrals.py). -/
def TRIAL_DAYS_FOR_INVITEE : Int := 3

/-- `base = expires_at if (expires_at and expires_at > now) else now`,
the extension base shared by `_add_days` (admin.py) and
`add_days_to_subscription` (referrals.py). -/
def extendBase (now : Int) : Option Int → Int
  | some e => if e > now then e else now
  | none => now

/-- `_add_days`' backfill of an empty `purchased_at`. -/
def backfillPurchased (now : Int) : Option Int → Option Int
  | none => some now
  | some p => some p

/-- `admin.py` `_add_days(user_id, days)`: create the subscription if
absent, otherwise extend from `expires_at` when strictly in the future
else from `now`, add to `period_days`, reset the three flags, and
backfill `purchased_at` when it was empty. -/
def add_days (now uid days : Int) (subs : List SubRow) : List SubRow :=
  match lookupSub uid subs with
  | none =>
      subs ++ [{ telegram_id := uid, purchased_at := some now, period_days := some days,
                 expires_at := some (now + tdDays days), tariff := none,
                 warn_2d_sent := 0, expired_sent := 0, keys_deleted := 0 }]
  | some row =>
      updSub uid
        (fun r => { r with
            period_days := some (intOr0 row.period_days + days),
            expires_at := some (extendBase now row.expires_at + tdDays days),
            warn_2d_sent := 0, expired_sent := 0, keys_deleted := 0,
            purchased_at := backfillPurchased now row.purchased_at }) subs

/-- `admin.py` `_add_months(user_id, months)`. -/
def add_months (now uid months : Int) (subs : List SubRow) : List SubRow :=
  add_days now uid (months * 30) subs

/-- `referrals.py` `add_days_to_subscription(user_id, days)`: same base
arithmetic as `add_days`, but its UPDATE touches only `period_days` and
`expires_at` (no flag reset, no `purchased_at` backfill); its INSERT
leaves `tariff` NULL and the flags at their column default 0. -/
def add_days_to_subscription (now uid days : Int) (subs : List SubRow) : List SubRow :=
  match lookupSub uid subs with
  | none =>
      subs ++ [{ telegram_id := uid, purchased_at := some now, period_days := some days,
                 expires_at := some (now + tdDays days), tariff := none,
                 warn_2d_sent := 0, expired_sent := 0, keys_deleted := 0 }]
  | some row =>
      updSub uid
        (fun r => { r with
            period_days := some (intOr0 row.period_days + days),
            expires_at := some (extendBase now row.expires_at + tdDays days) }) subs

/-- `admin.py` `_set_subscription_tariff`: INSERT-or-ignore a bare
subscription row carrying only the tariff, then set the tariff. -/
def set_subscription_tariff (uid : Int) (tariff_code : String) (subs : List SubRow) : List SubRow :=
  let subs1 :=
    match lookupSub uid subs with
    | some _ => subs
    | none =>
        subs ++ [{ telegram_id := uid, purchased_at := none, period_days := none,
                   expires_at := none, tariff := some tariff_code,
                   warn_2d_sent := 0, expired_sent := 0, keys_deleted := 0 }]
  updSub uid (fun r => { r with tariff := some tariff_code }) subs1

/-- `SELECT id, tariff FROM payments WHERE user_id=? AND status='pending'
ORDER BY id DESC LIMIT 1` (ids are the AUTOINCREMENT primary key). -/
def latestPending (uid : Int) (pays : List PaymentRow) : Option PaymentRow :=
  (pays.filter fun p => p.user_id == uid && p.status == "pending").foldl
    (fun a p =>
      match a with
      | none => some p
      | some q => if p.id > q.id then some p else some q) none

/-- `admin.py` `_apply_latest_pending_payment_tariff(user_id)`: take the
newest pending payment; if absent return None without touching the
store; otherwise assign its tariff (when truthy) to the subscription and
mark that payment approved. -/
def apply_latest_pending_payment_tariff (uid : Int) (st : St) : St × Option String :=
  match latestPending uid st.payments with
  | none => (st, none)
  | some p =>
      let subs' :=
        match p.tariff with
        | some tc => if tc ≠ "" then set_subscription_tariff uid tc st.subs else st.subs
        | none => st.subs
      let pays' := st.payments.map fun q => if q.id = p.id then { q with status := "approved" } else q
      ({ st with subs := subs', payments := pays' }, p.tariff)

/-- `admin.py` `_award_referrer_bonus_if_first_paid(user_id)`.  (The
referrer credit re-reads `datetime.now` inside `_add_days`; the
microseconds between the two reads are collapsed into one `now`.) -/
def award_referrer_bonus_if_first_paid (now uid : Int) (st : St) : St × Option Int :=
  match lookupUser uid st.users with
  | none => (st, none)
  | some u =>
      if u.first_paid = 1 then (st, none)
      else
        let st1 := { st with
          users := updUser uid (fun x => { x with first_paid := 1, first_paid_at := some now }) st.users }
        match u.referrer_id with
        | none => (st1, none)
        | some rid =>
            if u.ref_bonus_awarded = 1 then (st1, none)
            else
              let st2 := { st1 with subs := add_days now rid BONUS_DAYS_FOR_REFERRER st1.subs }
              let st3 := { st2 with
                users := updUser uid (fun x => { x with ref_bonus_awarded := 1 }) st2.users }
              (st3, some rid)

/-- Whitespace classified by Python `str.split()` / `str.strip()`. -/
def pyIsSpace (c : Char) : Bool :=
  c = ' ' || c = '\t' || c = '\n' || c = '\r' || c = '\x0b' || c = '\x0c'

/-- Drop leading whitespace. -/
def dropWs : List Char → List Char
  | [] => []
  | c :: cs => if pyIsSpace c then dropWs cs else c :: cs

/-- Python `str.strip()`. -/
def pyStrip (l : List Char) : List Char :=
  (dropWs (dropWs l).reverse).reverse

/-- The chars of the first whitespace-free token. -/
def takeTok : List Char → List Char
  | [] => []
  | c :: cs => if pyIsSpace c then [] else c :: takeTok cs

/-- What follows the first whitespace-free token. -/
def dropTok : List Char → List Char
  | [] => []
  | c :: cs => if pyIsSpace c then c :: cs else dropTok cs

/-- Python `str.split(maxsplit=1)`: at most two pieces, never empty
ones; the second piece keeps its trailing whitespace. -/
def splitMax1 (l : List Char) : List (List Char) :=
  let l1 := dropWs l
  match l1 with
  | [] => []
  | _ =>
      let rest := dropWs (dropTok l1)
      match rest with
      | [] => [takeTok l1]
      | _ => [takeTok l1, rest]

/-- `payload.startswith("ref_")`. -/
def startsWithRef (l : List Char) : Bool :=
  decide (l.take 4 = [ 'r', 'e', 'f', '_'])

/-- `payload.replace("ref_", "")`: remove every (left-to-right,
non-overlapping) occurrence of the four-character pattern. -/
def replaceRef : List Char → List Char
  | 'r' :: 'e' :: 'f' :: '_' :: rest => replaceRef rest
  | c :: rest => c :: replaceRef rest
  | [] => []

/-- Decimal value of a digit list. -/
def digitsVal (l : List Char) : Nat :=
  l.foldl (fun a c => a * 10 + (c.toNat - '0'.toNat)) 0

/-- A non-empty all-digit list, as a number. -/
def parseNatDigits (l : List Char) : Option Nat :=
  if l ≠ [] ∧ l.all Char.isDigit then some (digitsVal l) else none

/-- Python `int(s)` on an already-stripped string: optional sign, then
decimal digits.  (Underscore digit grouping, which CPython also
accepts, is outside the model.) -/
def pyInt (l : List Char) : Option Int :=
  match l with
  | [] => none
  | c :: rest =>
      if c = '-' then (parseNatDigits rest).map fun n => -(n : Int)
      else if c = '+' then (parseNatDigits rest).map fun n => (n : Int)
      else (parseNatDigits (c :: rest)).map fun n => (n : Int)

/-- `referrals.py` `parse_referrer_id_from_start(text, current_user_id)`:
`/start ref_12345 -> 12345`, rejecting malformed tokens and
self-referral. -/
def parse_referrer_id_from_start (text : Option String) (current_user_id : Int) : Option Int :=
  match text with
  | none => none
  | some t =>
      if t.data.isEmpty then none
      else
        let parts := splitMax1 t.data
        if parts.length < 2 then none
        else
          let payload := pyStrip (parts.getD 1 [])
          if startsWithRef payload then
            match pyInt (pyStrip (replaceRef payload)) with
            | none => none
            | some rid => if rid = current_user_id then none else some rid
          else none

/-- `referrals.py` `apply_referral_on_start(new_user_id, start_text)`:
first-writer-wins referrer assignment plus the trial credit to the new
user (via `add_days_to_subscription`). -/
def apply_referral_on_start (now uid : Int) (start_text : Option String) (st : St) : St × Option Int :=
  match parse_referrer_id_from_start start_text uid with
  | none => (st, none)
  | some rid =>
      match lookupUser uid st.users with
      | none => (st, none)
      | some u =>
          match u.referrer_id with
          | some _ => (st, none)
          | none =>
              let users1 := st.users.map fun x =>
                if x.telegram_id = uid ∧ x.referrer_id = none
                then { x with referrer_id := some rid } else x
              let st1 := { st with users := users1 }
              ({ st1 with
                  subs := add_days_to_subscription now uid TRIAL_DAYS_FOR_INVITEE st1.subs },
                some rid)

/-- The decimal digit characters. -/
def digitChar (d : Nat) : Char :=
  match d with
  | 0 => '0'
  | 1 => '1'
  | 2 => '2'
  | 3 => '3'
  | 4 => '4'
  | 5 => '5'
  | 6 => '6'
  | 7 => '7'
  | 8 => '8'
  | _ => '9'

/-- Digits of `n`, most significant first, with enough `fuel` to
divide `n` down to a single digit. -/
def natReprAux : Nat → Nat → List Char
  | 0, _ => []
  | fuel + 1, n =>
      if n < 10 then [digitChar n]
      else natReprAux fuel (n / 10) ++ [digitChar (n % 10)]

/-- Canonical decimal numeral of a natural number, used to state
claims about payloads of the form `ref_<n>`. -/
def natRepr (n : Nat) : List Char :=
  natReprAux (n + 1) n

/-- The full `/start` message carrying a canonical `ref_<n>` payload. -/
def refStartText (n : Nat) : String :=
  "/start ref_" ++ String.mk (natRepr n)

/-- The three notifications the watcher can send for a row. -/
inductive MsgKind where
  | warn
  | expired
  | revoked
  deriving Repr, DecidableEq

/-- One `bot.send_message` attempt and its outcome. -/
structure Send where
  uid : Int
  kind : MsgKind
  ok : Bool
  deriving Repr, DecidableEq

/-- `WARN_BEFORE = timedelta(days=2)` (main.py). -/
def WARN_BEFORE : Int := tdDays 2

/-- `GRACE_AFTER_EXPIRE = timedelta(days=2)` (main.py). -/
def GRACE_AFTER_EXPIRE : Int := tdDays 2

/-- One iteration of the `for` body of `subscription_watcher`
(main.py) over a single fetched subscription row, with the delivery
outcome of each `bot.send_message` given by `deliver`.  Returns the
row's new column values, whether the key-revocation branch ran, and the
log of send attempts.  All branch conditions read the values fetched at
the start of the scan, exactly as the Python locals do. -/
def stepRow (now : Int) (deliver : Int → MsgKind → Bool) (r : SubRow) :
    SubRow × Bool × List Send :=
  match r.expires_at with
  | none => (r, false, [])
  | some exp =>
      if exp > now then
        let r1 :=
          if r.expired_sent = 1 ∨ r.keys_deleted = 1
          then { r with expired_sent := 0, keys_deleted := 0 } else r
        if exp - now ≤ WARN_BEFORE ∧ r.warn_2d_sent = 0 then
          if deliver r.telegram_id .warn then
            ({ r1 with warn_2d_sent := 1 }, false, [⟨r.telegram_id, .warn, true⟩])
          else (r1, false, [⟨r.telegram_id, .warn, false⟩])
        else if exp - now > WARN_BEFORE ∧ r.warn_2d_sent = 1 then
          ({ r1 with warn_2d_sent := 0 }, false, [])
        else (r1, false, [])
      else
        let s1 :=
          if r.expired_sent = 0 then
            if deliver r.telegram_id .expired then
              ({ r with expired_sent := 1 }, [Send.mk r.telegram_id .expired true])
            else (r, [Send.mk r.telegram_id .expired false])
          else (r, ([] : List Send))
        if now ≥ exp + GRACE_AFTER_EXPIRE ∧ r.keys_deleted = 0 then
          ({ s1.1 with keys_deleted := 1 }, true,
            s1.2 ++ [⟨r.telegram_id, .revoked, deliver r.telegram_id .revoked⟩])
        else (s1.1, false, s1.2)

/-- The revocation branch's
`UPDATE user_keys SET outline_key=NULL, v2ray_key=NULL, amnezia_key=NULL,
updated_at=?, updated_by=0`. -/
def clearKeysRow (now : Int) (k : KeyRow) : KeyRow :=
  { k with outline_key := none, v2ray_key := none, amnezia_key := none,
           updated_at := some now, updated_by := some 0 }

/-- One full scan of `subscription_watcher` with no store failure: every
fetched row is processed, key rows of revoked users are cleared, and the
send log is concatenated in row order.  (Rows whose `expires_at` is
NULL/empty are skipped by the SQL filter and left untouched, which the
per-row `none` case reproduces.) -/
def scanStep (now : Int) (deliver : Int → MsgKind → Bool) (st : St) : St × List Send :=
  let revoked := (st.subs.filter fun r => (stepRow now deliver r).2.1).map (·.telegram_id)
  ({ st with
      subs := st.subs.map fun r => (stepRow now deliver r).1,
      keysTable := st.keysTable.map fun k =>
        if revoked.contains k.user_id then clearKeysRow now k else k },
    (st.subs.map fun r => (stepRow now deliver r).2.2).flatten)

/-- Applying one processed row to the connection's current
(uncommitted) state. -/
def applyRowResult (now : Int) (st : St) (res : SubRow × Bool × List Send) : St :=
  { st with
      subs := st.subs.map fun x => if x.telegram_id = res.1.telegram_id then res.1 else x,
      keysTable :=
        if res.2.1 then
          st.keysTable.map fun k =>
            if k.user_id = res.1.telegram_id then clearKeysRow now k else k
        else st.keysTable }

/-- Whether processing this row issues a store write that no
`try/except` inside the loop covers: the re-activation flag reset and
the warn hysteresis clear.  (The warn/expired flag writes sit inside
the same `try` as their `send_message`, and the whole revocation branch
has its own catch-all, so failures there do not escape the row.) -/
def rowUncaughtWrite (now : Int) (r : SubRow) : Bool :=
  match r.expires_at with
  | none => false
  | some exp =>
      decide (exp > now) &&
        ((decide (r.expired_sent = 1) || decide (r.keys_deleted = 1)) ||
          (decide (exp - now > WARN_BEFORE) && decide (r.warn_2d_sent = 1)))

/-- The scan loop under store failures.  `com` is the last committed
state (the revocation branch commits mid-scan; the loop commits once
more after the last row); `cur` is the connection's current state.  A
store error escaping a row's processing propagates to the watcher's
outer `except`, so the scan stops and the connection closes, rolling
back to the last commit. -/
def scanRowsFaulty (now : Int) (deliver : Int → MsgKind → Bool)
    (storeFail : Int → Bool) : List SubRow → St → St → St
  | [], _, cur => cur
  | r :: rs, com, cur =>
      if storeFail r.telegram_id && rowUncaughtWrite now r then com
      else
        let res := stepRow now deliver r
        let cur' := applyRowResult now cur res
        scanRowsFaulty now deliver storeFail rs (if res.2.1 then cur' else com) cur'

/-- One scan of `subscription_watcher` in which the store may fail
while processing the rows named by `storeFail`. -/
def scanFaulty (now : Int) (deliver : Int → MsgKind → Bool)
    (storeFail : Int → Bool) (st : St) : St :=
  scanRowsFaulty now deliver storeFail st.subs st st

/-- The operations whose interleavings the lifecycle invariants range
over: the two extension paths and the reconciliation scan. -/
inductive Op where
  | adminAdd (uid days now : Int)
  | refAdd (uid days now : Int)
  | scan (now : Int) (deliver : Int → MsgKind → Bool)

/-- Apply one operation to the store. -/
def applyOp (st : St) : Op → St
  | .adminAdd uid days now => { st with subs := add_days now uid days st.subs }
  | .refAdd uid days now => { st with subs := add_days_to_subscription now uid days st.subs }
  | .scan now deliver => (scanStep now deliver st).1

/-- Apply a sequence of operations. -/
def applyOps (ops : List Op) (st : St) : St :=
  ops.foldl applyOp st

/-- The freshly initialised store (`init_db`). -/
def initSt : St := ⟨[], [], [], []⟩

/-- One extension call, through either implementation of the period
extension operation. -/
structure ExtCall where
  admin : Bool
  uid : Int
  days : Int
  now : Int

/-- Run one extension call. -/
def runExt (c : ExtCall) (subs : List SubRow) : List SubRow :=
  if c.admin then add_days c.now c.uid c.days subs
  else add_days_to_subscription c.now c.uid c.days subs

/-- Run a sequence of extension calls. -/
def runExts (cs : List ExtCall) (subs : List SubRow) : List SubRow :=
  cs.foldl (fun s c => runExt c s) subs

/-- A user's `expires_at`, when a subscription row exists. -/
def expiresOf (uid : Int) (subs : List SubRow) : Option Int :=
  (lookupSub uid subs).bind fun r => r.expires_at

/-- Order on nullable expirations: an absent or NULL expiration is
below everything. -/
def optIntLe (a b : Option Int) : Bool :=
  match a, b with
  | none, _ => true
  | some _, none => false
  | some x, some y => x ≤ y

/-- Per-row flag invariant used by the lifecycle proofs: revocation
implies the expiry notice was recorded, and both flags are boolean. -/
def scanFlagsInv (st : St) : Prop :=
  ∀ r ∈ st.subs,
    (r.keys_deleted = 1 → r.expired_sent = 1) ∧
    (r.expired_sent = 0 ∨ r.expired_sent = 1) ∧
    (r.keys_deleted = 0 ∨ r.keys_deleted = 1)

/-- An operation whose expiry notices (if it is a scan) are all
delivered. -/
def expiryDeliveryOk : Op → Prop
  | .scan _ deliver => ∀ u, deliver u MsgKind.expired = true
  | _ => True

/-- The log records a successful delivery of this notification. -/
def sentOk (log : List Send) (u : Int) (k : MsgKind) : Prop :=
  Send.mk u k true ∈ log

/-- The subscription rows carry pairwise distinct primary keys. -/
def subIdsNodup (l : List SubRow) : Prop :=
  (l.map (·.telegram_id)).Nodup

/-- The row created by `_add_days` when no subscription exists. -/
def freshSub (now uid days : Int) : SubRow :=
  { telegram_id := uid, purchased_at := some now, period_days := some days,
    expires_at := some (now + tdDays days), tariff := none,
    warn_2d_sent := 0, expired_sent := 0, keys_deleted := 0 }

/-- The row `_add_days` leaves behind when a subscription exists. -/
def adminExtended (now days : Int) (row : SubRow) : SubRow :=
  { row with
      period_days := some (intOr0 row.period_days + days),
      expires_at := some (extendBase now row.expires_at + tdDays days),
      warn_2d_sent := 0, expired_sent := 0, keys_deleted := 0,
      purchased_at := backfillPurchased now row.purchased_at }

/-- The row `add_days_to_subscription` leaves behind when a
subscription exists. -/
def referralExtended (now days : Int) (row : SubRow) : SubRow :=
  { row with
      period_days := some (intOr0 row.period_days + days),
      expires_at := some (extendBase now row.expires_at + tdDays days) }

theorem lookupSub_updSub (uid w : Int) (f : SubRow → SubRow)
    (hf : ∀ r, (f r).telegram_id = r.telegram_id) :
    ∀ l : List SubRow, lookupSub w (updSub uid f l) =
      if w = uid then (lookupSub w l).map f else lookupSub w l := by
  intro l
  induction l with
  | nil => by_cases h : w = uid <;> simp [lookupSub, updSub, h]
  | cons r rs ih =>
      by_cases h1 : r.telegram_id = uid <;> by_cases h2 : r.telegram_id = w <;>
        by_cases h3 : w = uid <;>
        simp_all [lookupSub, updSub, hf]

theorem lookupSub_append (w : Int) (l : List SubRow) (r : SubRow) :
    lookupSub w (l ++ [r]) =
      match lookupSub w l with
      | some x => some x
      | none => if r.telegram_id = w then some r else none := by
  induction l with
  | nil => simp [lookupSub]
  | cons a as ih => by_cases h : a.telegram_id = w <;> simp [lookupSub, h, ih]

theorem lookupUser_updUser (uid w : Int) (f : UserRow → UserRow)
    (hf : ∀ r, (f r).telegram_id = r.telegram_id) :
    ∀ l : List UserRow, lookupUser w (updUser uid f l) =
      if w = uid then (lookupUser w l).map f else lookupUser w l := by
  intro l
  induction l with
  | nil => by_cases h : w = uid <;> simp [lookupUser, updUser, h]
  | cons r rs ih =>
      by_cases h1 : r.telegram_id = uid <;> by_cases h2 : r.telegram_id = w <;>
        by_cases h3 : w = uid <;>
        simp_all [lookupUser, updUser, hf]

theorem optIntLe_refl (a : Option Int) : optIntLe a a = true := by
  cases a <;> simp [optIntLe]

theorem optIntLe_trans {a b c : Option Int} (h1 : optIntLe a b = true)
    (h2 : optIntLe b c = true) : optIntLe a c = true := by
  cases a <;> cases b <;> cases c <;> (simp_all [optIntLe]; try omega)

theorem optIntLe_some_some {x y : Int} (h : x ≤ y) :
    optIntLe (some x) (some y) = true := by
  simpa [optIntLe] using h

theorem extendBase_ge {now e : Int} {oe : Option Int} (h : oe = some e) :
    e ≤ extendBase now oe := by
  subst h
  simp only [extendBase]
  split <;> omega

theorem add_days_lookup (now u days w : Int) (subs : List SubRow) (row : SubRow)
    (hl : lookupSub u subs = some row) :
    lookupSub w (add_days now u days subs) =
      if w = u then some (adminExtended now days row) else lookupSub w subs := by
  unfold add_days
  rw [hl]
  rw [lookupSub_updSub u w
    (fun r => { r with
        period_days := some (intOr0 row.period_days + days),
        expires_at := some (extendBase now row.expires_at + tdDays days),
        warn_2d_sent := 0, expired_sent := 0, keys_deleted := 0,
        purchased_at := backfillPurchased now row.purchased_at })
    (fun r => rfl) subs]
  by_cases hw : w = u
  · subst hw
    rw [if_pos rfl, if_pos rfl, hl]
    rfl
  · rw [if_neg hw, if_neg hw]

theorem add_days_lookup_new (now u days : Int) (subs : List SubRow)
    (hl : lookupSub u subs = none) :
    lookupSub u (add_days now u days subs) = some (freshSub now u days)
    ∧ ∀ w, w ≠ u → lookupSub w (add_days now u days subs) = lookupSub w subs := by
  unfold add_days
  rw [hl]
  constructor
  · rw [lookupSub_append, hl]
    simp [freshSub]
  · intro w hw
    rw [lookupSub_append]
    cases h : lookupSub w subs with
    | none => simp [Ne.symm hw]
    | some x => rfl

theorem add_days_to_subscription_lookup (now u days w : Int) (subs : List SubRow)
    (row : SubRow) (hl : lookupSub u subs = some row) :
    lookupSub w (add_days_to_subscription now u days subs) =
      if w = u then some (referralExtended now days row) else lookupSub w subs := by
  unfold add_days_to_subscription
  rw [hl]
  rw [lookupSub_updSub u w
    (fun r => { r with
        period_days := some (intOr0 row.period_days + days),
        expires_at := some (extendBase now row.expires_at + tdDays days) })
    (fun r => rfl) subs]
  by_cases hw : w = u
  · subst hw
    rw [if_pos rfl, if_pos rfl, hl]
    rfl
  · rw [if_neg hw, if_neg hw]

theorem add_days_to_subscription_lookup_new (now u days : Int) (subs : List SubRow)
    (hl : lookupSub u subs = none) :
    lookupSub u (add_days_to_subscription now u days subs) = some (freshSub now u days)
    ∧ ∀ w, w ≠ u →
        lookupSub w (add_days_to_subscription now u days subs) = lookupSub w subs := by
  unfold add_days_to_subscription
  rw [hl]
  constructor
  · rw [lookupSub_append, hl]
    simp [freshSub]
  · intro w hw
    rw [lookupSub_append]
    cases h : lookupSub w subs with
    | none => simp [Ne.symm hw]
    | some x => rfl

theorem expiresOf_add_days (now u days uid : Int) (subs : List SubRow)
    (hd : 0 ≤ days) :
    optIntLe (expiresOf uid subs) (expiresOf uid (add_days now u days subs)) = true := by
  cases hl : lookupSub u subs with
  | none =>
      by_cases huid : uid = u
      · subst huid
        simp [expiresOf, hl, optIntLe]
      · simp only [expiresOf]
        rw [(add_days_lookup_new now u days subs hl).2 uid huid]
        exact optIntLe_refl _
  | some row =>
      simp only [expiresOf]
      rw [add_days_lookup now u days uid subs row hl]
      by_cases huid : uid = u
      · subst huid
        rw [if_pos rfl, hl]
        show optIntLe row.expires_at
          (some (extendBase now row.expires_at + tdDays days)) = true
        cases he : row.expires_at with
        | none => simp [optIntLe]
        | some e =>
            refine optIntLe_some_some ?_
            have h1 : e ≤ extendBase now (some e) := extendBase_ge rfl
            have h2 : 0 ≤ tdDays days := by
              simp only [tdDays]; omega
            omega
      · rw [if_neg huid]
        exact optIntLe_refl _

theorem expiresOf_add_days_to_subscription (now u days uid : Int) (subs : List SubRow)
    (hd : 0 ≤ days) :
    optIntLe (expiresOf uid subs)
      (expiresOf uid (add_days_to_subscription now u days subs)) = true := by
  cases hl : lookupSub u subs with
  | none =>
      by_cases huid : uid = u
      · subst huid
        simp [expiresOf, hl, optIntLe]
      · simp only [expiresOf]
        rw [(add_days_to_subscription_lookup_new now u days subs hl).2 uid huid]
        exact optIntLe_refl _
  | some row =>
      simp only [expiresOf]
      rw [add_days_to_subscription_lookup now u days uid subs row hl]
      by_cases huid : uid = u
      · subst huid
        rw [if_pos rfl, hl]
        show optIntLe row.expires_at
          (some (extendBase now row.expires_at + tdDays days)) = true
        cases he : row.expires_at with
        | none => simp [optIntLe]
        | some e =>
            refine optIntLe_some_some ?_
            have h1 : e ≤ extendBase now (some e) := extendBase_ge rfl
            have h2 : 0 ≤ tdDays days := by
              simp only [tdDays]; omega
            omega
      · rw [if_neg huid]
        exact optIntLe_refl _

theorem expiresOf_runExts (uid : Int) (cs : List ExtCall) :
    ∀ subs : List SubRow, (∀ c ∈ cs, 0 < c.days) →
      optIntLe (expiresOf uid subs) (expiresOf uid (runExts cs subs)) = true := by
  induction cs with
  | nil => intro subs _; simp [runExts, optIntLe_refl]
  | cons c cs ih =>
      intro subs h
      have hc : 0 < c.days := h c (by simp)
      have h1 : optIntLe (expiresOf uid subs) (expiresOf uid (runExt c subs)) = true := by
        unfold runExt
        split
        · exact expiresOf_add_days _ _ _ _ _ (le_of_lt hc)
        · exact expiresOf_add_days_to_subscription _ _ _ _ _ (le_of_lt hc)
      have h2 := ih (runExt c subs) (fun x hx => h x (by simp [hx]))
      have : runExts (c :: cs) subs = runExts cs (runExt c subs) := by
        simp [runExts, List.foldl_cons]
      rw [this]
      exact optIntLe_trans h1 h2

theorem award_sets_first_paid (st : St) (now uid : Int) (u : UserRow)
    (hu : lookupUser uid st.users = some u) (hfp : u.first_paid ≠ 1) :
    (lookupUser uid (award_referrer_bonus_if_first_paid now uid st).1.users).map
      (fun x => (x.first_paid, x.first_paid_at)) = some (1, some now) := by
  simp only [award_referrer_bonus_if_first_paid]
  rw [hu]
  simp only [if_neg hfp]
  cases hr : u.referrer_id with
  | none =>
      simp only []
      rw [lookupUser_updUser uid uid
        (fun x => { x with first_paid := 1, first_paid_at := some now })
        (fun r => rfl) st.users, if_pos rfl, hu]
      rfl
  | some rid =>
      by_cases hb : u.ref_bonus_awarded = 1
      · simp only [if_pos hb]
        rw [lookupUser_updUser uid uid
          (fun x => { x with first_paid := 1, first_paid_at := some now })
          (fun r => rfl) st.users, if_pos rfl, hu]
        rfl
      · simp only [if_neg hb]
        rw [lookupUser_updUser uid uid
          (fun x => { x with ref_bonus_awarded := 1 }) (fun r => rfl)
          (updUser uid (fun x => { x with first_paid := 1, first_paid_at := some now }) st.users),
          if_pos rfl]
        rw [lookupUser_updUser uid uid
          (fun x => { x with first_paid := 1, first_paid_at := some now })
          (fun r => rfl) st.users, if_pos rfl, hu]
        rfl

theorem award_noop_of_first_paid (st : St) (now uid : Int) (u : UserRow)
    (hu : lookupUser uid st.users = some u) (hfp : u.first_paid = 1) :
    award_referrer_bonus_if_first_paid now uid st = (st, none) := by
  simp only [award_referrer_bonus_if_first_paid]
  rw [hu]
  simp [hfp]

/-- C1: `creditFirstPaymentBonusIfDue` fires its transitions at most
once per user: when `first_paid` is already 1 it is a no-op returning
none; otherwise it marks `first_paid = 1` with `first_paid_at = now`
even without a referrer; the referrer bonus (one `_add_days` of the
bonus constant on the referrer) happens only on that first effective
call; and every later call, at any time, leaves the store unchanged and
returns none. -/
theorem C1_award_referrer_bonus_at_most_once (st : St) (now now2 uid : Int) :
    (∀ u, lookupUser uid st.users = some u → u.first_paid = 1 →
        award_referrer_bonus_if_first_paid now uid st = (st, none))
    ∧ (∀ u, lookupUser uid st.users = some u → u.first_paid ≠ 1 →
        (lookupUser uid (award_referrer_bonus_if_first_paid now uid st).1.users).map
          (fun x => (x.first_paid, x.first_paid_at)) = some (1, some now))
    ∧ (∀ u rid, lookupUser uid st.users = some u → u.first_paid ≠ 1 →
        u.referrer_id = some rid → u.ref_bonus_awarded ≠ 1 →
        (award_referrer_bonus_if_first_paid now uid st).2 = some rid
        ∧ (award_referrer_bonus_if_first_paid now uid st).1.subs
            = add_days now rid BONUS_DAYS_FOR_REFERRER st.subs
        ∧ (lookupUser uid (award_referrer_bonus_if_first_paid now uid st).1.users).map
            (fun x => x.ref_bonus_awarded) = some 1)
    ∧ award_referrer_bonus_if_first_paid now2 uid
          (award_referrer_bonus_if_first_paid now uid st).1
        = ((award_referrer_bonus_if_first_paid now uid st).1, none) := by
  refine ⟨?_, ?_, ?_, ?_⟩
  · intro u hu hfp
    exact award_noop_of_first_paid st now uid u hu hfp
  · intro u hu hfp
    exact award_sets_first_paid st now uid u hu hfp
  · intro u rid hu hfp hr hb
    simp only [award_referrer_bonus_if_first_paid]
    rw [hu]
    simp only [if_neg hfp]
    rw [hr]
    simp only [if_neg hb]
    refine ⟨by trivial, by trivial, ?_⟩
    rw [lookupUser_updUser uid uid
      (fun x => { x with ref_bonus_awarded := 1 }) (fun r => rfl)
      (updUser uid (fun x => { x with first_paid := 1, first_paid_at := some now }) st.users),
      if_pos rfl]
    rw [lookupUser_updUser uid uid
      (fun x => { x with first_paid := 1, first_paid_at := some now })
      (fun r => rfl) st.users, if_pos rfl, hu]
    rfl
  · cases hu : lookupUser uid st.users with
    | none =>
        have h1 : award_referrer_bonus_if_first_paid now uid st = (st, none) := by
          simp [award_referrer_bonus_if_first_paid, hu]
        rw [h1]
        simp [award_referrer_bonus_if_first_paid, hu]
    | some u =>
        by_cases hfp : u.first_paid = 1
        · have h1 := award_noop_of_first_paid st now uid u hu hfp
          rw [h1]
          exact award_noop_of_first_paid st now2 uid u hu hfp
        · have h2 := award_sets_first_paid st now uid u hu hfp
          obtain ⟨v, hx0, hpair⟩ := Option.map_eq_some'.mp h2
          have hv : v.first_paid = 1 := by
            have := congrArg Prod.fst hpair
            simpa using this
          exact award_noop_of_first_paid _ now2 uid v hx0 hv

theorem C1_witness :
    award_referrer_bonus_if_first_paid 50 2
        ⟨[⟨2, some 9, 0, 1, some 3⟩], [], [], []⟩
      = (⟨[⟨2, some 9, 0, 1, some 3⟩], [], [], []⟩, none)
    ∧ (lookupUser 2 (award_referrer_bonus_if_first_paid 50 2
          ⟨[⟨2, some 9, 0, 0, none⟩], [], [], []⟩).1.users).map
        (fun x => (x.first_paid, x.first_paid_at)) = some (1, some 50)
    ∧ (award_referrer_bonus_if_first_paid 50 2
          ⟨[⟨2, some 9, 0, 0, none⟩], [], [], []⟩).2 = some 9 := by
  refine ⟨?_, ?_, ?_⟩
  · exact (C1_award_referrer_bonus_at_most_once
      ⟨[⟨2, some 9, 0, 1, some 3⟩], [], [], []⟩ 50 50 2).1 _ rfl rfl
  · exact (C1_award_referrer_bonus_at_most_once
      ⟨[⟨2, some 9, 0, 0, none⟩], [], [], []⟩ 50 50 2).2.1 _ rfl (by decide)
  · exact ((C1_award_referrer_bonus_at_most_once
      ⟨[⟨2, some 9, 0, 0, none⟩], [], [], []⟩ 50 50 2).2.2.1 _ 9 rfl (by decide) rfl
        (by decide)).1

/-- C2: the period extension contract of both `_add_days` (admin.py)
and `add_days_to_subscription` (referrals.py): creation with
`purchased_at = now`, `period_days = days`, `expires_at = now + days`;
extension from `base = expires_at` if strictly future else `now`, with
`period_days` increased by exactly `days`; and `expires_at` never
decreases across any sequence of extension calls with positive day
counts. -/
theorem C2_period_extension (subs : List SubRow) (uid now days : Int) (hd : 0 < days) :
    (lookupSub uid subs = none →
        lookupSub uid (add_days now uid days subs) = some (freshSub now uid days)
        ∧ lookupSub uid (add_days_to_subscription now uid days subs)
            = some (freshSub now uid days))
    ∧ (∀ row : SubRow, lookupSub uid subs = some row →
        lookupSub uid (add_days now uid days subs) = some (adminExtended now days row)
        ∧ lookupSub uid (add_days_to_subscription now uid days subs)
            = some (referralExtended now days row)
        ∧ (adminExtended now days row).expires_at
            = some (extendBase now row.expires_at + tdDays days)
        ∧ (referralExtended now days row).expires_at
            = some (extendBase now row.expires_at + tdDays days)
        ∧ (adminExtended now days row).period_days = some (intOr0 row.period_days + days)
        ∧ (referralExtended now days row).period_days = some (intOr0 row.period_days + days)
        ∧ (∀ e, row.expires_at = some e → e < extendBase now row.expires_at + tdDays days))
    ∧ (∀ cs : List ExtCall, (∀ c ∈ cs, 0 < c.days) →
        optIntLe (expiresOf uid subs) (expiresOf uid (runExts cs subs)) = true) := by
  refine ⟨?_, ?_, ?_⟩
  · intro hl
    exact ⟨(add_days_lookup_new now uid days subs hl).1,
           (add_days_to_subscription_lookup_new now uid days subs hl).1⟩
  · intro row hl
    refine ⟨?_, ?_, rfl, rfl, rfl, rfl, ?_⟩
    · rw [add_days_lookup now uid days uid subs row hl, if_pos rfl]
    · rw [add_days_to_subscription_lookup now uid days uid subs row hl, if_pos rfl]
    · intro e he
      have h1 : e ≤ extendBase now row.expires_at := extendBase_ge he
      have h2 : 0 < tdDays days := by
        simp only [tdDays]; omega
      omega
  · exact fun cs h => expiresOf_runExts uid cs subs h

theorem C2_witness :
    lookupSub 1 (add_days 0 1 30 []) = some (freshSub 0 1 30)
    ∧ lookupSub 1 (add_days 2000 1 3
          [⟨1, some 0, some 30, some 1000, none, 1, 1, 0⟩])
        = some (adminExtended 2000 3 ⟨1, some 0, some 30, some 1000, none, 1, 1, 0⟩)
    ∧ optIntLe (expiresOf 1 [])
        (expiresOf 1 (runExts [⟨true, 1, 30, 0⟩, ⟨false, 1, 3, 1000⟩] [])) = true := by
  refine ⟨?_, ?_, ?_⟩
  · exact ((C2_period_extension [] 1 0 30 (by decide)).1 rfl).1
  · exact ((C2_period_extension [⟨1, some 0, some 30, some 1000, none, 1, 1, 0⟩]
      1 2000 3 (by decide)).2.1 _ rfl).1
  · exact (C2_period_extension [] 1 0 30 (by decide)).2.2
      [⟨true, 1, 30, 0⟩, ⟨false, 1, 3, 1000⟩] (by decide)

/-- C3 counterexample: the referral-trial credit path
(`apply_referral_on_start`, which extends through
`add_days_to_subscription`) successfully extends an existing
subscription — the referrer is recorded and `expires_at`/`period_days`
move — yet `warn_2d_sent`, `expired_sent` and `keys_deleted` all stay
at 1 instead of being reset to 0. -/
theorem C3_counterexample :
    (apply_referral_on_start 20 5 (some "/start ref_9")
        ⟨[⟨5, none, 0, 0, none⟩], [⟨5, some 0, some 1, some 10, none, 1, 1, 1⟩], [], []⟩).2
      = some 9
    ∧ lookupSub 5 (apply_referral_on_start 20 5 (some "/start ref_9")
        ⟨[⟨5, none, 0, 0, none⟩], [⟨5, some 0, some 1, some 10, none, 1, 1, 1⟩], [], []⟩).1.subs
      = some ⟨5, some 0, some 4, some (20 + tdDays 3), none, 1, 1, 1⟩ := by
  exact ⟨rfl, rfl⟩

/-- C3 amended: an extension of an existing subscription through
`_add_days` (the operator-grant and referral-bonus paths) resets
`warn_2d_sent`, `expired_sent`, `keys_deleted` to 0, but an extension
through `add_days_to_subscription` (the referral-trial path) leaves all
three flags unchanged. -/
theorem C3_flag_reset_amended (subs : List SubRow) (uid now days : Int) (row : SubRow)
    (hl : lookupSub uid subs = some row) :
    (lookupSub uid (add_days now uid days subs) = some (adminExtended now days row)
      ∧ (adminExtended now days row).warn_2d_sent = 0
      ∧ (adminExtended now days row).expired_sent = 0
      ∧ (adminExtended now days row).keys_deleted = 0)
    ∧ (lookupSub uid (add_days_to_subscription now uid days subs)
          = some (referralExtended now days row)
      ∧ (referralExtended now days row).warn_2d_sent = row.warn_2d_sent
      ∧ (referralExtended now days row).expired_sent = row.expired_sent
      ∧ (referralExtended now days row).keys_deleted = row.keys_deleted) := by
  refine ⟨⟨?_, rfl, rfl, rfl⟩, ?_, rfl, rfl, rfl⟩
  · rw [add_days_lookup now uid days uid subs row hl, if_pos rfl]
  · rw [add_days_to_subscription_lookup now uid days uid subs row hl, if_pos rfl]

theorem C3_witness :
    lookupSub 7 (add_days_to_subscription 100 7 30
        [⟨7, some 0, some 5, some 50, none, 1, 1, 1⟩])
      = some (referralExtended 100 30 ⟨7, some 0, some 5, some 50, none, 1, 1, 1⟩) := by
  exact ((C3_flag_reset_amended [⟨7, some 0, some 5, some 50, none, 1, 1, 1⟩]
    7 100 30 _ rfl).2).1

theorem digitChar_lt10 :
    ∀ d, d < 10 → (digitChar d).isDigit = true
      ∧ (digitChar d).toNat - Char.toNat '0' = d := by
  decide

theorem natReprAux_spec :
    ∀ fuel n, n < fuel →
      natReprAux fuel n ≠ []
      ∧ (∀ c ∈ natReprAux fuel n, c.isDigit = true)
      ∧ digitsVal (natReprAux fuel n) = n := by
  intro fuel
  induction fuel with
  | zero => intro n h; omega
  | succ fuel ih =>
      intro n h
      by_cases h10 : n < 10
      · simp only [natReprAux, if_pos h10]
        refine ⟨by simp, ?_, ?_⟩
        · intro c hc
          simp only [List.mem_singleton] at hc
          subst hc
          exact (digitChar_lt10 n h10).1
        · simp only [digitsVal, List.foldl]
          simpa using (digitChar_lt10 n h10).2
      · have hrec := ih (n / 10) (by omega)
        simp only [natReprAux, if_neg h10]
        refine ⟨by simp, ?_, ?_⟩
        · intro c hc
          rcases List.mem_append.mp hc with h1 | h2
          · exact hrec.2.1 c h1
          · simp only [List.mem_singleton] at h2
            subst h2
            exact (digitChar_lt10 (n % 10) (by omega)).1
        · have hv := hrec.2.2
          simp only [digitsVal, List.foldl_append, List.foldl] at hv ⊢
          rw [hv]
          have := (digitChar_lt10 (n % 10) (by omega)).2
          omega

theorem natRepr_ne_nil (n : Nat) : natRepr n ≠ [] :=
  (natReprAux_spec (n + 1) n (by omega)).1

theorem natRepr_digits (n : Nat) : ∀ c ∈ natRepr n, c.isDigit = true :=
  (natReprAux_spec (n + 1) n (by omega)).2.1

theorem digitsVal_natRepr (n : Nat) : digitsVal (natRepr n) = n :=
  (natReprAux_spec (n + 1) n (by omega)).2.2

theorem parseNatDigits_natRepr (n : Nat) : parseNatDigits (natRepr n) = some n := by
  unfold parseNatDigits
  rw [if_pos ⟨natRepr_ne_nil n, by
    rw [List.all_eq_true]
    intro c hc
    exact natRepr_digits n c hc⟩]
  rw [digitsVal_natRepr]

theorem isDigit_facts {c : Char} (h : c.isDigit = true) :
    pyIsSpace c = false ∧ c ≠ 'r' ∧ c ≠ '-' ∧ c ≠ '+' := by
  refine ⟨?_, ?_, ?_, ?_⟩
  · by_contra hx
    rw [Bool.not_eq_false] at hx
    simp only [pyIsSpace, Bool.or_eq_true, decide_eq_true_eq] at hx
    rcases hx with ((((h1 | h1) | h1) | h1) | h1) | h1 <;>
      (subst h1; exact absurd h (by decide))
  · intro h1; subst h1; exact absurd h (by decide)
  · intro h1; subst h1; exact absurd h (by decide)
  · intro h1; subst h1; exact absurd h (by decide)

theorem replaceRef_ref (l : List Char) :
    replaceRef ('r' :: 'e' :: 'f' :: '_' :: l) = replaceRef l := rfl

theorem replaceRef_cons_ne_r (c : Char) (cs : List Char) (h : c ≠ 'r') :
    replaceRef (c :: cs) = c :: replaceRef cs := by
  simp [replaceRef, h]

theorem replaceRef_digits (l : List Char) (h : ∀ c ∈ l, c.isDigit = true) :
    replaceRef l = l := by
  induction l with
  | nil => rfl
  | cons c cs ih =>
      rw [replaceRef_cons_ne_r c cs (isDigit_facts (h c (by simp))).2.1]
      rw [ih fun x hx => h x (by simp [hx])]

theorem dropWs_no_ws {l : List Char} (h : ∀ c ∈ l, pyIsSpace c = false) :
    dropWs l = l := by
  cases l with
  | nil => rfl
  | cons c cs => simp [dropWs, h c (by simp)]

theorem pyStrip_no_ws {l : List Char} (h : ∀ c ∈ l, pyIsSpace c = false) :
    pyStrip l = l := by
  unfold pyStrip
  rw [dropWs_no_ws h,
    dropWs_no_ws (fun c hc => h c (List.mem_reverse.mp hc)),
    List.reverse_reverse]

theorem splitMax1_start (c0 : Char) (cs0 : List Char) (h : pyIsSpace c0 = false) :
    splitMax1 ('/' :: 's' :: 't' :: 'a' :: 'r' :: 't' :: ' ' :: c0 :: cs0)
      = [[ '/', 's', 't', 'a', 'r', 't'], c0 :: cs0] := by
  simp [splitMax1, dropWs, takeTok, dropTok, h,
    show pyIsSpace '/' = false from rfl, show pyIsSpace 's' = false from rfl,
    show pyIsSpace 't' = false from rfl, show pyIsSpace 'a' = false from rfl,
    show pyIsSpace 'r' = false from rfl, show pyIsSpace ' ' = true from rfl]

theorem pyInt_natRepr (n : Nat) : pyInt (natRepr n) = some ((n : Nat) : Int) := by
  cases hnr : natRepr n with
  | nil => exact absurd hnr (natRepr_ne_nil n)
  | cons c cs =>
      have hc : c.isDigit = true := natRepr_digits n c (by rw [hnr]; simp)
      have hfacts := isDigit_facts hc
      simp only [pyInt]
      rw [if_neg hfacts.2.2.1, if_neg hfacts.2.2.2, ← hnr, parseNatDigits_natRepr]
      rfl

theorem parse_refStartText (n : Nat) (u : Int) :
    parse_referrer_id_from_start (some (refStartText n)) u
      = if ((n : Nat) : Int) = u then none else some ((n : Nat) : Int) := by
  have hdig : ∀ c ∈ natRepr n, c.isDigit = true := natRepr_digits n
  have hnows : ∀ c ∈ natRepr n, pyIsSpace c = false :=
    fun c hc => (isDigit_facts (hdig c hc)).1
  have hdata : (refStartText n).data
      = '/' :: 's' :: 't' :: 'a' :: 'r' :: 't' :: ' ' :: 'r' :: 'e' :: 'f' :: '_'
          :: natRepr n := by
    simp [refStartText, String.data_append]
  have hstrip1 : pyStrip ('r' :: 'e' :: 'f' :: '_' :: natRepr n)
      = 'r' :: 'e' :: 'f' :: '_' :: natRepr n := by
    refine pyStrip_no_ws ?_
    intro c hc
    simp only [List.mem_cons] at hc
    rcases hc with rfl | rfl | rfl | rfl | hc
    · rfl
    · rfl
    · rfl
    · rfl
    · exact hnows c hc
  have hrepl : replaceRef ('r' :: 'e' :: 'f' :: '_' :: natRepr n) = natRepr n := by
    rw [replaceRef_ref]
    exact replaceRef_digits _ hdig
  simp only [parse_referrer_id_from_start]
  rw [hdata]
  rw [splitMax1_start 'r' ('e' :: 'f' :: '_' :: natRepr n) rfl]
  simp only [List.isEmpty_cons, Bool.false_eq_true, if_false, List.length_cons,
    List.length_nil, List.getD, List.get?_cons_succ, List.get?_cons_zero,
    Option.getD_some, show ¬(0 + 1 + 1 < 2) from by omega]
  rw [hstrip1]
  rw [show startsWithRef ('r' :: 'e' :: 'f' :: '_' :: natRepr n) = true from rfl]
  rw [hrepl, pyStrip_no_ws hnows, pyInt_natRepr]
  simp

theorem parse_ne_self (t : Option String) (u : Int) :
    parse_referrer_id_from_start t u ≠ some u := by
  cases t with
  | none => simp [parse_referrer_id_from_start]
  | some s =>
      simp only [parse_referrer_id_from_start]
      split
      · simp
      · split
        · simp
        · split
          · split
            · simp
            · split
              · simp
              · rename_i hrid _ hne
                intro hcontra
                exact hne (Option.some.inj hcontra)
          · simp

theorem lookupUser_map (f : UserRow → UserRow)
    (hf : ∀ r, (f r).telegram_id = r.telegram_id) (w : Int) :
    ∀ l : List UserRow, lookupUser w (l.map f) = (lookupUser w l).map f := by
  intro l
  induction l with
  | nil => rfl
  | cons a as ih =>
      by_cases ha : a.telegram_id = w
      · simp [lookupUser, hf, ha]
      · simp [lookupUser, hf, ha, ih]

theorem lookupUser_eq_id {w : Int} {l : List UserRow} {r : UserRow}
    (h : lookupUser w l = some r) : r.telegram_id = w := by
  induction l with
  | nil => simp [lookupUser] at h
  | cons a as ih =>
      by_cases ha : a.telegram_id = w
      · simp only [lookupUser, if_pos ha] at h
        cases h
        exact ha
      · simp only [lookupUser, if_neg ha] at h
        exact ih h

theorem apply_referral_newly_set (st : St) (now u rid : Int) (t : Option String)
    (urow : UserRow)
    (hp : parse_referrer_id_from_start t u = some rid)
    (hu : lookupUser u st.users = some urow)
    (hr : urow.referrer_id = none) :
    (apply_referral_on_start now u t st).2 = some rid
    ∧ lookupUser u (apply_referral_on_start now u t st).1.users
        = some { urow with referrer_id := some rid }
    ∧ (apply_referral_on_start now u t st).1.subs
        = add_days_to_subscription now u TRIAL_DAYS_FOR_INVITEE st.subs := by
  have hid : urow.telegram_id = u := lookupUser_eq_id hu
  have hmap : lookupUser u (st.users.map (fun x =>
        if x.telegram_id = u ∧ x.referrer_id = none
        then { x with referrer_id := some rid } else x))
      = (lookupUser u st.users).map (fun x =>
        if x.telegram_id = u ∧ x.referrer_id = none
        then { x with referrer_id := some rid } else x) := by
    refine lookupUser_map _ ?_ u st.users
    intro r
    by_cases hc : r.telegram_id = u ∧ r.referrer_id = none
    · simp [hc]
    · simp [hc]
  simp only [apply_referral_on_start, hp, hu, hr]
  refine ⟨by trivial, ?_, by trivial⟩
  rw [hmap, hu]
  simp [hid, hr]

theorem apply_referral_noop_set (st : St) (now u : Int) (t : Option String)
    (urow : UserRow) (r0 : Int)
    (hu : lookupUser u st.users = some urow) (hr : urow.referrer_id = some r0) :
    apply_referral_on_start now u t st = (st, none) := by
  simp only [apply_referral_on_start]
  cases hp : parse_referrer_id_from_start t u with
  | none => rfl
  | some rid => simp [hu, hr]

theorem apply_referral_twice (st : St) (now now2 u : Int) (t : Option String) :
    apply_referral_on_start now2 u t (apply_referral_on_start now u t st).1
      = ((apply_referral_on_start now u t st).1, none) := by
  cases hp : parse_referrer_id_from_start t u with
  | none =>
      have h1 : apply_referral_on_start now u t st = (st, none) := by
        simp [apply_referral_on_start, hp]
      rw [h1]
      simp [apply_referral_on_start, hp]
  | some rid =>
      cases hu : lookupUser u st.users with
      | none =>
          have h1 : apply_referral_on_start now u t st = (st, none) := by
            simp [apply_referral_on_start, hp, hu]
          rw [h1]
          simp [apply_referral_on_start, hp, hu]
      | some urow =>
          cases hr : urow.referrer_id with
          | some r0 =>
              have h1 := apply_referral_noop_set st now u t urow r0 hu hr
              rw [h1]
              exact apply_referral_noop_set st now2 u t urow r0 hu hr
          | none =>
              have h2 := (apply_referral_newly_set st now u rid t urow hp hu hr).2.1
              exact apply_referral_noop_set _ now2 u t _ rid h2 rfl

/-- C8: `apply_referral_on_start` rejects self-referral (the parser
never returns the caller's own id), never overwrites an existing
referrer (no-op returning none), and when the referrer is newly set it
records it and grants the fixed trial credit to the new user through
`add_days_to_subscription` while the referrer's own subscription row is
untouched; a second invocation for the same user is a no-op returning
none. -/
theorem C8_apply_referral_trial (st : St) (now u : Int) (t : Option String) :
    parse_referrer_id_from_start t u ≠ some u
    ∧ (∀ urow r0, lookupUser u st.users = some urow → urow.referrer_id = some r0 →
        apply_referral_on_start now u t st = (st, none))
    ∧ (∀ urow rid, lookupUser u st.users = some urow → urow.referrer_id = none →
        parse_referrer_id_from_start t u = some rid →
        (apply_referral_on_start now u t st).2 = some rid
        ∧ lookupUser u (apply_referral_on_start now u t st).1.users
            = some { urow with referrer_id := some rid }
        ∧ (apply_referral_on_start now u t st).1.subs
            = add_days_to_subscription now u TRIAL_DAYS_FOR_INVITEE st.subs
        ∧ lookupSub rid (apply_referral_on_start now u t st).1.subs
            = lookupSub rid st.subs)
    ∧ (∀ now2, apply_referral_on_start now2 u t (apply_referral_on_start now u t st).1
        = ((apply_referral_on_start now u t st).1, none)) := by
  refine ⟨parse_ne_self t u, ?_, ?_, fun now2 => apply_referral_twice st now now2 u t⟩
  · intro urow r0 hu hr
    exact apply_referral_noop_set st now u t urow r0 hu hr
  · intro urow rid hu hr hp
    have hmain := apply_referral_newly_set st now u rid t urow hp hu hr
    have hne : rid ≠ u := fun he => parse_ne_self t u (he ▸ hp)
    refine ⟨hmain.1, hmain.2.1, hmain.2.2, ?_⟩
    rw [hmain.2.2]
    cases hl : lookupSub u st.subs with
    | none =>
        exact (add_days_to_subscription_lookup_new now u TRIAL_DAYS_FOR_INVITEE
          st.subs hl).2 rid hne
    | some row =>
        rw [add_days_to_subscription_lookup now u TRIAL_DAYS_FOR_INVITEE rid
          st.subs row hl, if_neg hne]

theorem C8_witness :
    (apply_referral_on_start 20 5 (some "/start ref_9")
        ⟨[⟨5, none, 0, 0, none⟩], [], [], []⟩).2 = some 9
    ∧ lookupUser 5 (apply_referral_on_start 20 5 (some "/start ref_9")
        ⟨[⟨5, none, 0, 0, none⟩], [], [], []⟩).1.users
      = some ⟨5, some 9, 0, 0, none⟩
    ∧ apply_referral_on_start 30 5 (some "/start ref_9")
        (apply_referral_on_start 20 5 (some "/start ref_9")
          ⟨[⟨5, none, 0, 0, none⟩], [], [], []⟩).1
      = ((apply_referral_on_start 20 5 (some "/start ref_9")
          ⟨[⟨5, none, 0, 0, none⟩], [], [], []⟩).1, none) := by
  have h := C8_apply_referral_trial ⟨[⟨5, none, 0, 0, none⟩], [], [], []⟩ 20 5
    (some "/start ref_9")
  have h3 := h.2.2.1 ⟨5, none, 0, 0, none⟩ 9 rfl rfl rfl
  exact ⟨h3.1, h3.2.1, h.2.2.2 30⟩

/-- C10: a start payload carrying the canonical decimal token
`ref_<n>` parses to `n` whenever `n` differs from the caller's id, and
`apply_referral_on_start` then records `n` as referrer and grants the
trial credit with no hypothesis about — and in the witness, despite the
absence of — a Users row for `n`: the referrer id is never checked
against the users table. -/
theorem C10_unchecked_referrer (n : Nat) (u now : Int) (st : St) :
    parse_referrer_id_from_start (some (refStartText n)) u
      = (if ((n : Nat) : Int) = u then none else some ((n : Nat) : Int))
    ∧ (∀ urow, ((n : Nat) : Int) ≠ u →
        lookupUser u st.users = some urow → urow.referrer_id = none →
        lookupUser ((n : Nat) : Int) st.users = none →
        (apply_referral_on_start now u (some (refStartText n)) st).2
            = some ((n : Nat) : Int)
        ∧ lookupUser u (apply_referral_on_start now u (some (refStartText n)) st).1.users
            = some { urow with referrer_id := some ((n : Nat) : Int) }
        ∧ (apply_referral_on_start now u (some (refStartText n)) st).1.subs
            = add_days_to_subscription now u TRIAL_DAYS_FOR_INVITEE st.subs) := by
  refine ⟨parse_refStartText n u, ?_⟩
  intro urow hne hu hr _hnone
  exact apply_referral_newly_set st now u ((n : Nat) : Int) (some (refStartText n)) urow
    (by rw [parse_refStartText n u, if_neg hne]) hu hr

theorem C10_witness :
    parse_referrer_id_from_start (some (refStartText 9)) 5 = some 9
    ∧ (apply_referral_on_start 20 5 (some (refStartText 9))
        ⟨[⟨5, none, 0, 0, none⟩], [], [], []⟩).2 = some 9
    ∧ lookupUser 9 (⟨[⟨5, none, 0, 0, none⟩], [], [], []⟩ : St).users = none := by
  have h := C10_unchecked_referrer 9 5 20 ⟨[⟨5, none, 0, 0, none⟩], [], [], []⟩
  have h1 := h.1
  rw [if_neg (by decide)] at h1
  exact ⟨h1, (h.2 ⟨5, none, 0, 0, none⟩ (by decide) rfl rfl rfl).1, rfl⟩

theorem foldPickLatest_spec :
    ∀ (L : List PaymentRow) (acc : Option PaymentRow),
      (∀ r, L.foldl (fun a p =>
            match a with
            | none => some p
            | some q => if p.id > q.id then some p else some q) acc = some r →
          (acc = some r ∨ r ∈ L)
          ∧ (∀ a0, acc = some a0 → a0.id ≤ r.id)
          ∧ (∀ q ∈ L, q.id ≤ r.id))
      ∧ (L.foldl (fun a p =>
            match a with
            | none => some p
            | some q => if p.id > q.id then some p else some q) acc = none →
          acc = none ∧ L = []) := by
  intro L
  induction L with
  | nil =>
      intro acc
      constructor
      · intro r h
        refine ⟨Or.inl h, fun a0 ha0 => ?_, by simp⟩
        rw [ha0] at h
        cases h
        omega
      · intro h
        exact ⟨h, rfl⟩
  | cons p L ih =>
      intro acc
      cases acc with
      | none =>
          constructor
          · intro r h
            simp only [List.foldl_cons] at h
            obtain ⟨h1, h2, h3⟩ := (ih (some p)).1 r h
            have hpr : p.id ≤ r.id := h2 p rfl
            refine ⟨?_, by simp, ?_⟩
            · rcases h1 with h1 | h1
              · have : p = r := Option.some.inj h1
                exact Or.inr (by simp [this])
              · exact Or.inr (by simp [h1])
            · intro q hq
              rcases List.mem_cons.mp hq with rfl | hq2
              · exact hpr
              · exact h3 q hq2
          · intro h
            simp only [List.foldl_cons] at h
            have := ((ih (some p)).2 h).1
            cases this
      | some q0 =>
          by_cases hcmp : p.id > q0.id
          · constructor
            · intro r h
              simp only [List.foldl_cons, if_pos hcmp] at h
              obtain ⟨h1, h2, h3⟩ := (ih (some p)).1 r h
              have hpr : p.id ≤ r.id := h2 p rfl
              refine ⟨?_, ?_, ?_⟩
              · rcases h1 with h1 | h1
                · have : p = r := Option.some.inj h1
                  exact Or.inr (by simp [this])
                · exact Or.inr (by simp [h1])
              · intro a0 ha0
                cases ha0
                omega
              · intro q hq
                rcases List.mem_cons.mp hq with rfl | hq2
                · exact hpr
                · exact h3 q hq2
            · intro h
              simp only [List.foldl_cons, if_pos hcmp] at h
              have := ((ih (some p)).2 h).1
              cases this
          · constructor
            · intro r h
              simp only [List.foldl_cons, if_neg hcmp] at h
              obtain ⟨h1, h2, h3⟩ := (ih (some q0)).1 r h
              have hqr : q0.id ≤ r.id := h2 q0 rfl
              refine ⟨?_, ?_, ?_⟩
              · rcases h1 with h1 | h1
                · exact Or.inl h1
                · exact Or.inr (by simp [h1])
              · intro a0 ha0
                cases ha0
                omega
              · intro q hq
                rcases List.mem_cons.mp hq with rfl | hq2
                · omega
                · exact h3 q hq2
            · intro h
              simp only [List.foldl_cons, if_neg hcmp] at h
              have := ((ih (some q0)).2 h).1
              cases this

theorem latestPending_spec (uid : Int) (pays : List PaymentRow) :
    (latestPending uid pays = none →
        ∀ q ∈ pays, ¬(q.user_id = uid ∧ q.status = "pending"))
    ∧ (∀ p, latestPending uid pays = some p →
        p ∈ pays ∧ p.user_id = uid ∧ p.status = "pending"
        ∧ ∀ q ∈ pays, q.user_id = uid → q.status = "pending" → q.id ≤ p.id) := by
  constructor
  · intro h q hq hcond
    have h2 := ((foldPickLatest_spec
      (pays.filter fun p => p.user_id == uid && p.status == "pending") none).2 h).2
    have : q ∈ pays.filter fun p => p.user_id == uid && p.status == "pending" := by
      rw [List.mem_filter]
      exact ⟨hq, by simp [hcond.1, hcond.2]⟩
    rw [h2] at this
    cases this
  · intro p hp
    obtain ⟨h1, _h2, h3⟩ := (foldPickLatest_spec
      (pays.filter fun p => p.user_id == uid && p.status == "pending") none).1 p hp
    have hmem : p ∈ pays.filter fun p => p.user_id == uid && p.status == "pending" := by
      rcases h1 with h1 | h1
      · cases h1
      · exact h1
    have hprops := List.mem_filter.mp hmem
    have hpu : p.user_id = uid ∧ p.status = "pending" := by
      have := hprops.2
      simp only [Bool.and_eq_true, beq_iff_eq] at this
      exact this
    refine ⟨hprops.1, hpu.1, hpu.2, ?_⟩
    intro q hq hq1 hq2
    exact h3 q (by rw [List.mem_filter]; exact ⟨hq, by simp [hq1, hq2]⟩)

theorem set_subscription_tariff_lookup (uid : Int) (tc : String) (subs : List SubRow) :
    (∀ row, lookupSub uid subs = some row →
        lookupSub uid (set_subscription_tariff uid tc subs)
          = some { row with tariff := some tc })
    ∧ (lookupSub uid subs = none →
        lookupSub uid (set_subscription_tariff uid tc subs)
          = some { telegram_id := uid, purchased_at := none, period_days := none,
                   expires_at := none, tariff := some tc,
                   warn_2d_sent := 0, expired_sent := 0, keys_deleted := 0 }) := by
  constructor
  · intro row hl
    simp only [set_subscription_tariff, hl]
    rw [lookupSub_updSub uid uid (fun r => { r with tariff := some tc })
      (fun r => rfl) subs, if_pos rfl, hl]
    rfl
  · intro hl
    simp only [set_subscription_tariff, hl]
    rw [lookupSub_updSub uid uid (fun r => { r with tariff := some tc })
      (fun r => rfl), if_pos rfl, lookupSub_append, hl]
    simp

/-- C9: `_apply_latest_pending_payment_tariff` selects the pending
payment with the highest id for the user; with none it returns none and
mutates nothing; otherwise it marks exactly that payment approved
(others untouched) and, when the payment carries a non-empty tariff,
assigns it to the user's subscription — creating the row (with NULL
`expires_at`/`period_days`) if absent, and otherwise changing only the
tariff column, so `expires_at` and `period_days` are untouched. -/
theorem C9_apply_latest_pending (uid : Int) (st : St) :
    (latestPending uid st.payments = none →
        apply_latest_pending_payment_tariff uid st = (st, none)
        ∧ ∀ q ∈ st.payments, ¬(q.user_id = uid ∧ q.status = "pending"))
    ∧ (∀ p, latestPending uid st.payments = some p →
        p ∈ st.payments ∧ p.user_id = uid ∧ p.status = "pending"
        ∧ (∀ q ∈ st.payments, q.user_id = uid → q.status = "pending" → q.id ≤ p.id)
        ∧ (apply_latest_pending_payment_tariff uid st).1.payments
            = st.payments.map
                (fun q => if q.id = p.id then { q with status := "approved" } else q)
        ∧ (∀ tc, p.tariff = some tc → tc ≠ "" →
            (∀ row, lookupSub uid st.subs = some row →
                lookupSub uid (apply_latest_pending_payment_tariff uid st).1.subs
                  = some { row with tariff := some tc })
            ∧ (lookupSub uid st.subs = none →
                lookupSub uid (apply_latest_pending_payment_tariff uid st).1.subs
                  = some { telegram_id := uid, purchased_at := none, period_days := none,
                           expires_at := none, tariff := some tc,
                           warn_2d_sent := 0, expired_sent := 0, keys_deleted := 0 }))
        ∧ ((p.tariff = none ∨ p.tariff = some "") →
            (apply_latest_pending_payment_tariff uid st).1.subs = st.subs)) := by
  constructor
  · intro h
    refine ⟨?_, (latestPending_spec uid st.payments).1 h⟩
    simp [apply_latest_pending_payment_tariff, h]
  · intro p hp
    have hspec := (latestPending_spec uid st.payments).2 p hp
    refine ⟨hspec.1, hspec.2.1, hspec.2.2.1, hspec.2.2.2, ?_, ?_, ?_⟩
    · simp [apply_latest_pending_payment_tariff, hp]
    · intro tc htc hne
      constructor
      · intro row hrow
        simp only [apply_latest_pending_payment_tariff, hp, htc, if_pos hne]
        exact (set_subscription_tariff_lookup uid tc st.subs).1 row hrow
      · intro hnone
        simp only [apply_latest_pending_payment_tariff, hp, htc, if_pos hne]
        exact (set_subscription_tariff_lookup uid tc st.subs).2 hnone
    · intro hdeg
      rcases hdeg with h0 | h0
      · simp [apply_latest_pending_payment_tariff, hp, h0]
      · simp [apply_latest_pending_payment_tariff, hp, h0]

theorem C9_witness :
    (apply_latest_pending_payment_tariff 7
        ⟨[], [⟨7, some 1, some 2, some 3, none, 0, 0, 0⟩],
          [⟨1, 7, some "outline", "pending"⟩, ⟨2, 7, some "v2ray", "pending"⟩,
           ⟨3, 8, some "bundle", "pending"⟩], []⟩).1.payments
      = [⟨1, 7, some "outline", "pending"⟩, ⟨2, 7, some "v2ray", "approved"⟩,
         ⟨3, 8, some "bundle", "pending"⟩]
    ∧ lookupSub 7 (apply_latest_pending_payment_tariff 7
        ⟨[], [⟨7, some 1, some 2, some 3, none, 0, 0, 0⟩],
          [⟨1, 7, some "outline", "pending"⟩, ⟨2, 7, some "v2ray", "pending"⟩,
           ⟨3, 8, some "bundle", "pending"⟩], []⟩).1.subs
      = some ⟨7, some 1, some 2, some 3, some "v2ray", 0, 0, 0⟩ := by
  have h := (C9_apply_latest_pending 7
    ⟨[], [⟨7, some 1, some 2, some 3, none, 0, 0, 0⟩],
      [⟨1, 7, some "outline", "pending"⟩, ⟨2, 7, some "v2ray", "pending"⟩,
       ⟨3, 8, some "bundle", "pending"⟩], []⟩).2 ⟨2, 7, some "v2ray", "pending"⟩ rfl
  constructor
  · rw [h.2.2.2.2.1]
    rfl
  · exact (h.2.2.2.2.2.1 "v2ray" rfl (by decide)).1
      ⟨7, some 1, some 2, some 3, none, 0, 0, 0⟩ rfl

/-- C6: within a scan, a row in the warn window with `warn_2d_sent=0`
(resp. past expiry with `expired_sent=0`) ends with the flag at 1
exactly when the delivery succeeded; on failure the flag stays 0 and the
attempt is in the log, and a later scan in the same window attempts the
same notification again and records it on success (at-least-once
delivery with safe retry). -/
theorem C6_notification_flags (now now2 : Int) (deliver deliver2 : Int → MsgKind → Bool)
    (r : SubRow) (e : Int) (he : r.expires_at = some e) :
    (e > now → e - now ≤ WARN_BEFORE → r.warn_2d_sent = 0 →
        (stepRow now deliver r).1.warn_2d_sent
            = (if deliver r.telegram_id MsgKind.warn then 1 else 0)
        ∧ (deliver r.telegram_id MsgKind.warn = false →
            Send.mk r.telegram_id MsgKind.warn false ∈ (stepRow now deliver r).2.2
            ∧ (e > now2 → e - now2 ≤ WARN_BEFORE →
                deliver2 r.telegram_id MsgKind.warn = true →
                (stepRow now2 deliver2 (stepRow now deliver r).1).1.warn_2d_sent = 1)))
    ∧ (¬ e > now → r.expired_sent = 0 →
        (stepRow now deliver r).1.expired_sent
            = (if deliver r.telegram_id MsgKind.expired then 1 else 0)
        ∧ (deliver r.telegram_id MsgKind.expired = false →
            Send.mk r.telegram_id MsgKind.expired false ∈ (stepRow now deliver r).2.2
            ∧ (¬ e > now2 → deliver2 r.telegram_id MsgKind.expired = true →
                (stepRow now2 deliver2 (stepRow now deliver r).1).1.expired_sent = 1))) := by
  constructor
  · intro h1 h2 h3
    cases hd : deliver r.telegram_id MsgKind.warn with
    | true =>
        constructor
        · simp [stepRow, he, h1, h2, h3, hd]
        · intro hcontra
          cases hcontra
    | false =>
        have hrow : (stepRow now deliver r).1
            = if r.expired_sent = 1 ∨ r.keys_deleted = 1
              then { r with expired_sent := 0, keys_deleted := 0 } else r := by
          simp [stepRow, he, h1, h2, h3, hd]
        constructor
        · rw [hrow]
          by_cases hr1 : r.expired_sent = 1 ∨ r.keys_deleted = 1 <;> simp [hr1, h3, hd]
        · intro _
          constructor
          · simp [stepRow, he, h1, h2, h3, hd]
          · intro h1b h2b hd2
            by_cases hr1 : r.expired_sent = 1 ∨ r.keys_deleted = 1
            · rw [hrow, if_pos hr1]
              simp [stepRow, he, h1b, h2b, h3, hd2]
            · rw [hrow, if_neg hr1]
              simp [stepRow, he, h1b, h2b, h3, hd2]
  · intro h1 h2
    cases hd : deliver r.telegram_id MsgKind.expired with
    | true =>
        constructor
        · by_cases hrev : now ≥ e + GRACE_AFTER_EXPIRE ∧ r.keys_deleted = 0 <;>
            simp [stepRow, he, h1, h2, hd, hrev]
        · intro hcontra
          cases hcontra
    | false =>
        have hrow : (stepRow now deliver r).1
            = if now ≥ e + GRACE_AFTER_EXPIRE ∧ r.keys_deleted = 0
              then { r with keys_deleted := 1 } else r := by
          by_cases hrev : now ≥ e + GRACE_AFTER_EXPIRE ∧ r.keys_deleted = 0 <;>
            simp [stepRow, he, h1, h2, hd, hrev]
        constructor
        · rw [hrow]
          by_cases hrev : now ≥ e + GRACE_AFTER_EXPIRE ∧ r.keys_deleted = 0 <;>
            simp [hrev, h2, hd]
        · intro _
          constructor
          · by_cases hrev : now ≥ e + GRACE_AFTER_EXPIRE ∧ r.keys_deleted = 0 <;>
              simp [stepRow, he, h1, h2, hd, hrev]
          · intro h1b hd2
            by_cases hrev : now ≥ e + GRACE_AFTER_EXPIRE ∧ r.keys_deleted = 0
            · rw [hrow, if_pos hrev]
              simp [stepRow, he, h1b, h2, hd2]
            · rw [hrow, if_neg hrev]
              simp [stepRow, he, h1b, h2, hd2]
              split_ifs <;> simp

theorem C6_witness :
    (stepRow 0 (fun _ _ => false)
        ⟨3, some 0, some 2, some 1440, none, 0, 0, 0⟩).1.warn_2d_sent = 0
    ∧ Send.mk 3 MsgKind.warn false
        ∈ (stepRow 0 (fun _ _ => false)
            ⟨3, some 0, some 2, some 1440, none, 0, 0, 0⟩).2.2
    ∧ (stepRow 10 (fun _ _ => true)
        (stepRow 0 (fun _ _ => false)
          ⟨3, some 0, some 2, some 1440, none, 0, 0, 0⟩).1).1.warn_2d_sent = 1 := by
  have h := (C6_notification_flags 0 10 (fun _ _ => false) (fun _ _ => true)
    ⟨3, some 0, some 2, some 1440, none, 0, 0, 0⟩ 1440 rfl).1
    (by decide) (by decide) rfl
  have h2 := h.2 rfl
  refine ⟨?_, h2.1, h2.2 (by decide) (by decide) rfl⟩
  rw [h.1]
  rfl

theorem stepRow_active_noop (now : Int) (deliver : Int → MsgKind → Bool)
    (row : SubRow) (e : Int)
    (he : row.expires_at = some e) (hgt : e > now)
    (hrst : ¬(row.expired_sent = 1 ∨ row.keys_deleted = 1))
    (hwa : ¬(e - now ≤ WARN_BEFORE ∧ row.warn_2d_sent = 0))
    (hwb : ¬(e - now > WARN_BEFORE ∧ row.warn_2d_sent = 1)) :
    stepRow now deliver row = (row, false, []) := by
  simp only [stepRow, he]
  rw [if_pos hgt, if_neg hrst, if_neg hwa, if_neg hwb]

theorem stepRow_active_retry (now : Int) (deliver : Int → MsgKind → Bool)
    (row : SubRow) (e : Int)
    (he : row.expires_at = some e) (hgt : e > now)
    (hrst : ¬(row.expired_sent = 1 ∨ row.keys_deleted = 1))
    (hw : e - now ≤ WARN_BEFORE ∧ row.warn_2d_sent = 0)
    (hd : deliver row.telegram_id MsgKind.warn = false) :
    stepRow now deliver row
      = (row, false, [Send.mk row.telegram_id MsgKind.warn false]) := by
  simp only [stepRow, he]
  rw [if_pos hgt, if_neg hrst, if_pos hw, hd]
  simp

theorem stepRow_expired_noop (now : Int) (deliver : Int → MsgKind → Bool)
    (row : SubRow) (e : Int)
    (he : row.expires_at = some e) (hgt : ¬ e > now)
    (hx : ¬ row.expired_sent = 0)
    (hrev : ¬(now ≥ e + GRACE_AFTER_EXPIRE ∧ row.keys_deleted = 0)) :
    stepRow now deliver row = (row, false, []) := by
  simp only [stepRow, he]
  rw [if_neg hgt, if_neg hx, if_neg hrev]

theorem stepRow_expired_retry (now : Int) (deliver : Int → MsgKind → Bool)
    (row : SubRow) (e : Int)
    (he : row.expires_at = some e) (hgt : ¬ e > now)
    (hx : row.expired_sent = 0)
    (hd : deliver row.telegram_id MsgKind.expired = false)
    (hrev : ¬(now ≥ e + GRACE_AFTER_EXPIRE ∧ row.keys_deleted = 0)) :
    stepRow now deliver row
      = (row, false, [Send.mk row.telegram_id MsgKind.expired false]) := by
  simp only [stepRow, he]
  rw [if_neg hgt, if_pos hx, hd, if_neg hrev]
  simp

theorem stepRow_idem (now : Int) (deliver : Int → MsgKind → Bool) (r : SubRow) :
    (stepRow now deliver (stepRow now deliver r).1).1 = (stepRow now deliver r).1
    ∧ (stepRow now deliver (stepRow now deliver r).1).2.1 = false
    ∧ ∀ s ∈ (stepRow now deliver (stepRow now deliver r).1).2.2,
        Send.mk s.uid s.kind true ∉ (stepRow now deliver r).2.2 := by
  cases he : r.expires_at with
  | none => simp [stepRow, he]
  | some e =>
      by_cases hgt : e > now
      · by_cases hw : e - now ≤ WARN_BEFORE ∧ r.warn_2d_sent = 0
        · cases hd : deliver r.telegram_id MsgKind.warn with
          | true =>
              by_cases hrst : r.expired_sent = 1 ∨ r.keys_deleted = 1
              · have h1 : stepRow now deliver r
                    = ({ r with expired_sent := 0, keys_deleted := 0, warn_2d_sent := 1 },
                        false, [Send.mk r.telegram_id MsgKind.warn true]) := by
                  simp only [stepRow, he]
                  rw [if_pos hgt, if_pos hrst, if_pos hw, hd]
                  simp
                have h2 := stepRow_active_noop now deliver
                  { r with expired_sent := 0, keys_deleted := 0, warn_2d_sent := 1 } e
                  he hgt (by simp) (by simp)
                  (fun hb => absurd hb.1 (by have := hw.1; omega))
                simp [h1, h2]
              · have h1 : stepRow now deliver r
                    = ({ r with warn_2d_sent := 1 },
                        false, [Send.mk r.telegram_id MsgKind.warn true]) := by
                  simp only [stepRow, he]
                  rw [if_pos hgt, if_neg hrst, if_pos hw, hd]
                  simp [he]
                have h2 := stepRow_active_noop now deliver
                  { r with warn_2d_sent := 1 } e
                  he hgt (by simpa using hrst) (by simp)
                  (fun hb => absurd hb.1 (by have := hw.1; omega))
                simp [h1, h2]
          | false =>
              by_cases hrst : r.expired_sent = 1 ∨ r.keys_deleted = 1
              · have h1 : stepRow now deliver r
                    = ({ r with expired_sent := 0, keys_deleted := 0 },
                        false, [Send.mk r.telegram_id MsgKind.warn false]) := by
                  simp only [stepRow, he]
                  rw [if_pos hgt, if_pos hrst, if_pos hw, hd]
                  simp
                have h2 := stepRow_active_retry now deliver
                  { r with expired_sent := 0, keys_deleted := 0 } e
                  he hgt (by simp) (by simpa using hw) hd
                simp [h1, h2]
              · have h1 : stepRow now deliver r
                    = (r, false, [Send.mk r.telegram_id MsgKind.warn false]) := by
                  simp only [stepRow, he]
                  rw [if_pos hgt, if_neg hrst, if_pos hw, hd]
                  simp
                have h2 := stepRow_active_retry now deliver r e he hgt hrst hw hd
                simp [h1, h2]
        · by_cases hb : e - now > WARN_BEFORE ∧ r.warn_2d_sent = 1
          · by_cases hrst : r.expired_sent = 1 ∨ r.keys_deleted = 1
            · have h1 : stepRow now deliver r
                  = ({ r with expired_sent := 0, keys_deleted := 0, warn_2d_sent := 0 },
                      false, []) := by
                simp only [stepRow, he]
                rw [if_pos hgt, if_pos hrst, if_neg hw, if_pos hb]
              have h2 := stepRow_active_noop now deliver
                { r with expired_sent := 0, keys_deleted := 0, warn_2d_sent := 0 } e
                he hgt (by simp)
                (fun hc => absurd hb.1 (by have := hc.1; omega))
                (by simp)
              simp [h1, h2]
            · have h1 : stepRow now deliver r
                  = ({ r with warn_2d_sent := 0 }, false, []) := by
                simp only [stepRow, he]
                rw [if_pos hgt, if_neg hrst, if_neg hw, if_pos hb]
                simp [he]
              have h2 := stepRow_active_noop now deliver
                { r with warn_2d_sent := 0 } e
                he hgt (by simpa using hrst)
                (fun hc => absurd hb.1 (by have := hc.1; omega))
                (by simp)
              simp [h1, h2]
          · by_cases hrst : r.expired_sent = 1 ∨ r.keys_deleted = 1
            · have h1 : stepRow now deliver r
                  = ({ r with expired_sent := 0, keys_deleted := 0 }, false, []) := by
                simp only [stepRow, he]
                rw [if_pos hgt, if_pos hrst, if_neg hw, if_neg hb]
              have h2 := stepRow_active_noop now deliver
                { r with expired_sent := 0, keys_deleted := 0 } e
                he hgt (by simp) (by simpa using hw) (by simpa using hb)
              simp [h1, h2]
            · have h1 : stepRow now deliver r = (r, false, []) := by
                simp only [stepRow, he]
                rw [if_pos hgt, if_neg hrst, if_neg hw, if_neg hb]
              have h2 := stepRow_active_noop now deliver r e he hgt hrst hw hb
              simp [h1, h2]
      · by_cases hx : r.expired_sent = 0
        · cases hd : deliver r.telegram_id MsgKind.expired with
          | true =>
              by_cases hrev : now ≥ e + GRACE_AFTER_EXPIRE ∧ r.keys_deleted = 0
              · have h1 : stepRow now deliver r
                    = ({ r with expired_sent := 1, keys_deleted := 1 }, true,
                        [Send.mk r.telegram_id MsgKind.expired true,
                         Send.mk r.telegram_id MsgKind.revoked
                           (deliver r.telegram_id MsgKind.revoked)]) := by
                  simp only [stepRow, he]
                  rw [if_neg hgt, if_pos hx, hd, if_pos hrev]
                  simp
                have h2 := stepRow_expired_noop now deliver
                  { r with expired_sent := 1, keys_deleted := 1 } e
                  he hgt (by simp) (by simp)
                simp [h1, h2]
              · have h1 : stepRow now deliver r
                    = ({ r with expired_sent := 1 }, false,
                        [Send.mk r.telegram_id MsgKind.expired true]) := by
                  simp only [stepRow, he]
                  rw [if_neg hgt, if_pos hx, hd, if_neg hrev]
                  simp
                have h2 := stepRow_expired_noop now deliver
                  { r with expired_sent := 1 } e
                  he hgt (by simp) hrev
                simp [h1, h2]
          | false =>
              by_cases hrev : now ≥ e + GRACE_AFTER_EXPIRE ∧ r.keys_deleted = 0
              · have h1 : stepRow now deliver r
                    = ({ r with keys_deleted := 1 }, true,
                        [Send.mk r.telegram_id MsgKind.expired false,
                         Send.mk r.telegram_id MsgKind.revoked
                           (deliver r.telegram_id MsgKind.revoked)]) := by
                  simp only [stepRow, he]
                  rw [if_neg hgt, if_pos hx, hd, if_pos hrev]
                  simp [he]
                have h2 := stepRow_expired_retry now deliver
                  { r with keys_deleted := 1 } e
                  he hgt hx hd (by simp)
                simp [h1, h2]
              · have h1 : stepRow now deliver r
                    = (r, false, [Send.mk r.telegram_id MsgKind.expired false]) := by
                  simp only [stepRow, he]
                  rw [if_neg hgt, if_pos hx, hd, if_neg hrev]
                  simp
                have h2 := stepRow_expired_retry now deliver r e he hgt hx hd hrev
                simp [h1, h2]
        · by_cases hrev : now ≥ e + GRACE_AFTER_EXPIRE ∧ r.keys_deleted = 0
          · have h1 : stepRow now deliver r
                = ({ r with keys_deleted := 1 }, true,
                    [Send.mk r.telegram_id MsgKind.revoked
                      (deliver r.telegram_id MsgKind.revoked)]) := by
              simp only [stepRow, he]
              rw [if_neg hgt, if_neg hx, if_pos hrev]
              simp [he]
            have h2 := stepRow_expired_noop now deliver
              { r with keys_deleted := 1 } e
              he hgt hx (by simp)
            simp [h1, h2]
          · have h1 : stepRow now deliver r = (r, false, []) := by
              simp only [stepRow, he]
              rw [if_neg hgt, if_neg hx, if_neg hrev]
            have h2 := stepRow_expired_noop now deliver r e he hgt hx hrev
            simp [h1, h2]

theorem stepRow_id (now : Int) (deliver : Int → MsgKind → Bool) (r : SubRow) :
    (stepRow now deliver r).1.telegram_id = r.telegram_id := by
  cases he : r.expires_at with
  | none => simp [stepRow, he]
  | some e =>
      simp only [stepRow, he]
      split_ifs <;> simp

theorem stepRow_log_uid (now : Int) (deliver : Int → MsgKind → Bool) (r : SubRow) :
    ∀ s ∈ (stepRow now deliver r).2.2, s.uid = r.telegram_id := by
  cases he : r.expires_at with
  | none => simp [stepRow, he]
  | some e =>
      simp only [stepRow, he]
      split_ifs <;> intro s hs <;> simp_all <;> rcases hs with rfl | rfl <;> rfl

theorem map_step_idem (now : Int) (deliver : Int → MsgKind → Bool) :
    ∀ l : List SubRow,
      (l.map (fun r => (stepRow now deliver r).1)).map (fun r => (stepRow now deliver r).1)
        = l.map (fun r => (stepRow now deliver r).1) := by
  intro l
  induction l with
  | nil => rfl
  | cons a l ih => simp [ih, (stepRow_idem now deliver a).1]

theorem filter_step_revoke (now : Int) (deliver : Int → MsgKind → Bool) :
    ∀ l : List SubRow,
      (l.map (fun r => (stepRow now deliver r).1)).filter
          (fun r => (stepRow now deliver r).2.1) = [] := by
  intro l
  induction l with
  | nil => rfl
  | cons a l ih => simp [List.filter_cons, (stepRow_idem now deliver a).2.1, ih]

/-- C5: with primary keys distinct, running the reconciliation scan a
second time at the same instant with the same delivery outcomes leaves
the store exactly as the first scan left it, and no notification that
the first scan delivered successfully is attempted again. -/
theorem C5_scan_idempotent (now : Int) (deliver : Int → MsgKind → Bool) (st : St)
    (hnd : subIdsNodup st.subs) :
    (scanStep now deliver (scanStep now deliver st).1).1 = (scanStep now deliver st).1
    ∧ ∀ s ∈ (scanStep now deliver (scanStep now deliver st).1).2,
        ¬ sentOk (scanStep now deliver st).2 s.uid s.kind := by
  constructor
  · simp only [scanStep]
    simp [map_step_idem, filter_step_revoke]
    intro a _
    exact (stepRow_idem now deliver a).1
  · intro s hs hok
    simp only [scanStep, sentOk] at hs hok
    rcases List.mem_flatten.mp hs with ⟨lst, hlst, hsl⟩
    rcases List.mem_map.mp hlst with ⟨r1, hr1, rfl⟩
    rcases List.mem_map.mp hr1 with ⟨r, hr, rfl⟩
    have hno := (stepRow_idem now deliver r).2.2 s hsl
    rcases List.mem_flatten.mp hok with ⟨lst', hlst', hsl'⟩
    rcases List.mem_map.mp hlst' with ⟨r', hr', rfl⟩
    have hu1 : s.uid = r'.telegram_id := by
      have h0 := stepRow_log_uid now deliver r' _ hsl'
      simpa using h0
    have hu2 : s.uid = r.telegram_id := by
      have h0 := stepRow_log_uid now deliver (stepRow now deliver r).1 s hsl
      rw [h0, stepRow_id]
    have heq : r' = r :=
      List.inj_on_of_nodup_map hnd hr' hr (by rw [← hu1, hu2])
    subst heq
    exact hno hsl'

theorem C5_witness :
    (scanStep 0 (fun _ _ => true)
        (scanStep 0 (fun _ _ => true)
          ⟨[], [⟨3, some 0, some 2, some 1440, none, 0, 0, 0⟩], [],
            [⟨3, some "k", none, none, none, none⟩]⟩).1).1
      = (scanStep 0 (fun _ _ => true)
          ⟨[], [⟨3, some 0, some 2, some 1440, none, 0, 0, 0⟩], [],
            [⟨3, some "k", none, none, none, none⟩]⟩).1 := by
  exact (C5_scan_idempotent 0 (fun _ _ => true)
    ⟨[], [⟨3, some 0, some 2, some 1440, none, 0, 0, 0⟩], [],
      [⟨3, some "k", none, none, none, none⟩]⟩ (by simp [subIdsNodup])).1

/-- C4 counterexample: starting from an empty store, grant one day,
then scan two days past the grace period with every delivery failing:
the scan revokes (`keys_deleted = 1`) while the expiry notice was never
recorded (`expired_sent = 0`). -/
theorem C4_counterexample :
    (lookupSub 7 (applyOps
        [Op.adminAdd 7 1 0, Op.scan (tdDays 4) (fun _ _ => false)] initSt).subs).map
      (fun r => (r.keys_deleted, r.expired_sent)) = some (1, 0) := by
  rfl

theorem stepRow_flags_inv (now : Int) (deliver : Int → MsgKind → Bool) (r : SubRow)
    (hdel : deliver r.telegram_id MsgKind.expired = true)
    (h1 : r.keys_deleted = 1 → r.expired_sent = 1)
    (h2 : r.expired_sent = 0 ∨ r.expired_sent = 1)
    (h3 : r.keys_deleted = 0 ∨ r.keys_deleted = 1) :
    ((stepRow now deliver r).1.keys_deleted = 1 → (stepRow now deliver r).1.expired_sent = 1)
    ∧ ((stepRow now deliver r).1.expired_sent = 0 ∨ (stepRow now deliver r).1.expired_sent = 1)
    ∧ ((stepRow now deliver r).1.keys_deleted = 0 ∨ (stepRow now deliver r).1.keys_deleted = 1) := by
  cases he : r.expires_at with
  | none =>
      simp only [stepRow, he]
      exact ⟨h1, h2, h3⟩
  | some e =>
      simp only [stepRow, he]
      split_ifs <;> simp_all

theorem add_days_flags_inv (now u days : Int) (subs : List SubRow)
    (h : ∀ r ∈ subs,
      (r.keys_deleted = 1 → r.expired_sent = 1)
      ∧ (r.expired_sent = 0 ∨ r.expired_sent = 1)
      ∧ (r.keys_deleted = 0 ∨ r.keys_deleted = 1)) :
    ∀ r ∈ add_days now u days subs,
      (r.keys_deleted = 1 → r.expired_sent = 1)
      ∧ (r.expired_sent = 0 ∨ r.expired_sent = 1)
      ∧ (r.keys_deleted = 0 ∨ r.keys_deleted = 1) := by
  intro r hr
  cases hl : lookupSub u subs with
  | none =>
      simp only [add_days, hl] at hr
      rcases List.mem_append.mp hr with h0 | h0
      · exact h r h0
      · simp only [List.mem_singleton] at h0
        subst h0
        simp
  | some row =>
      simp only [add_days, hl, updSub] at hr
      rcases List.mem_map.mp hr with ⟨x, hx, rfl⟩
      by_cases hc : x.telegram_id = u
      · simp [hc]
      · simp only [if_neg hc]
        exact h x hx

theorem add_days_to_subscription_flags_inv (now u days : Int) (subs : List SubRow)
    (h : ∀ r ∈ subs,
      (r.keys_deleted = 1 → r.expired_sent = 1)
      ∧ (r.expired_sent = 0 ∨ r.expired_sent = 1)
      ∧ (r.keys_deleted = 0 ∨ r.keys_deleted = 1)) :
    ∀ r ∈ add_days_to_subscription now u days subs,
      (r.keys_deleted = 1 → r.expired_sent = 1)
      ∧ (r.expired_sent = 0 ∨ r.expired_sent = 1)
      ∧ (r.keys_deleted = 0 ∨ r.keys_deleted = 1) := by
  intro r hr
  cases hl : lookupSub u subs with
  | none =>
      simp only [add_days_to_subscription, hl] at hr
      rcases List.mem_append.mp hr with h0 | h0
      · exact h r h0
      · simp only [List.mem_singleton] at h0
        subst h0
        simp
  | some row =>
      simp only [add_days_to_subscription, hl, updSub] at hr
      rcases List.mem_map.mp hr with ⟨x, hx, rfl⟩
      by_cases hc : x.telegram_id = u
      · simp only [if_pos hc]
        exact h x hx
      · simp only [if_neg hc]
        exact h x hx

theorem applyOp_flags_inv (st : St) (op : Op) (hok : expiryDeliveryOk op)
    (h : scanFlagsInv st) : scanFlagsInv (applyOp st op) := by
  cases op with
  | adminAdd uid days now =>
      intro r hr
      simp only [applyOp] at hr
      exact add_days_flags_inv now uid days st.subs h r hr
  | refAdd uid days now =>
      intro r hr
      simp only [applyOp] at hr
      exact add_days_to_subscription_flags_inv now uid days st.subs h r hr
  | scan now deliver =>
      intro r hr
      simp only [applyOp, scanStep] at hr
      rcases List.mem_map.mp hr with ⟨x, hx, rfl⟩
      have hx2 := h x hx
      exact stepRow_flags_inv now deliver x (hok x.telegram_id) hx2.1 hx2.2.1 hx2.2.2

/-- C4 amended: provided every reconciliation scan's expiry notices are
delivered, every store reachable from the initial store by extensions
and scans satisfies `keys_deleted = 1 → expired_sent = 1` on all
subscription rows.  (The unamended claim fails when an expiry notice
delivery fails, see the counterexample.) -/
theorem C4_keys_implies_expired_amended (ops : List Op)
    (hok : ∀ op ∈ ops, expiryDeliveryOk op) :
    ∀ r ∈ (applyOps ops initSt).subs, r.keys_deleted = 1 → r.expired_sent = 1 := by
  have hmain : ∀ (l : List Op) (st : St), (∀ op ∈ l, expiryDeliveryOk op) →
      scanFlagsInv st → scanFlagsInv (applyOps l st) := by
    intro l
    induction l with
    | nil => intro st _ h; exact h
    | cons op l ih =>
        intro st hl h
        have h1 : applyOps (op :: l) st = applyOps l (applyOp st op) := rfl
        rw [h1]
        exact ih (applyOp st op) (fun o ho => hl o (List.mem_cons_of_mem op ho))
          (applyOp_flags_inv st op (hl op (List.mem_cons_self op l)) h)
  intro r hr hk
  have hinit : scanFlagsInv initSt := by
    intro r hr
    simp [initSt] at hr
  exact ((hmain ops initSt hok hinit) r hr).1 hk

theorem C4_witness :
    (⟨7, some 0, some 1, some (tdDays 1), none, 0, 1, 1⟩ : SubRow).expired_sent = 1 := by
  refine C4_keys_implies_expired_amended
    [Op.adminAdd 7 1 0, Op.scan (tdDays 4) (fun _ _ => true)] ?_ _ ?_ rfl
  · intro op hop
    simp only [List.mem_cons, List.mem_singleton] at hop
    rcases hop with rfl | rfl | h0
    · trivial
    · exact fun u => rfl
    · cases h0
  · decide

theorem scanRowsFaulty_nil (now : Int) (deliver : Int → MsgKind → Bool)
    (storeFail : Int → Bool) (com cur : St) :
    scanRowsFaulty now deliver storeFail [] com cur = cur := rfl

theorem scanRowsFaulty_cons (now : Int) (deliver : Int → MsgKind → Bool)
    (storeFail : Int → Bool) (r : SubRow) (rs : List SubRow) (com cur : St) :
    scanRowsFaulty now deliver storeFail (r :: rs) com cur =
      if storeFail r.telegram_id && rowUncaughtWrite now r then com
      else
        scanRowsFaulty now deliver storeFail rs
          (if (stepRow now deliver r).2.1
            then applyRowResult now cur (stepRow now deliver r) else com)
          (applyRowResult now cur (stepRow now deliver r)) := rfl

theorem lookupSub_applyRowResult_ne (now rid : Int) (cur : St)
    (res : SubRow × Bool × List Send) (hne : res.1.telegram_id ≠ rid) :
    lookupSub rid (applyRowResult now cur res).subs = lookupSub rid cur.subs := by
  show lookupSub rid (cur.subs.map fun x =>
      if x.telegram_id = res.1.telegram_id then res.1 else x) = lookupSub rid cur.subs
  induction cur.subs with
  | nil => rfl
  | cons a l ih =>
      simp only [List.map_cons]
      by_cases h : a.telegram_id = res.1.telegram_id
      · rw [if_pos h]
        simp only [lookupSub]
        rw [if_neg hne, if_neg (fun hh => hne (h.symm.trans hh))]
        exact ih
      · rw [if_neg h]
        simp only [lookupSub]
        by_cases h2 : a.telegram_id = rid
        · rw [if_pos h2, if_pos h2]
        · rw [if_neg h2, if_neg h2]
          exact ih

theorem scanRowsFaulty_fail_lookup (now : Int) (deliver : Int → MsgKind → Bool)
    (storeFail : Int → Bool) (rid : Int) (v : Option SubRow) :
    ∀ (pre : List SubRow) (f : SubRow) (post : List SubRow) (com cur : St),
      (∀ p ∈ pre, (storeFail p.telegram_id && rowUncaughtWrite now p) = false) →
      (storeFail f.telegram_id && rowUncaughtWrite now f) = true →
      (∀ p ∈ pre, p.telegram_id ≠ rid) →
      lookupSub rid com.subs = v →
      lookupSub rid cur.subs = v →
      lookupSub rid (scanRowsFaulty now deliver storeFail (pre ++ f :: post) com cur).subs
        = v := by
  intro pre
  induction pre with
  | nil =>
      intro f post com cur _ hf _ hcom _
      rw [List.nil_append, scanRowsFaulty_cons, if_pos hf]
      exact hcom
  | cons p pre ih =>
      intro f post com cur hpre hf hne hcom hcur
      have hp := hpre p (List.mem_cons_self p pre)
      have hpne : p.telegram_id ≠ rid := hne p (List.mem_cons_self p pre)
      rw [List.cons_append, scanRowsFaulty_cons, if_neg (by simp [hp])]
      have hid : (stepRow now deliver p).1.telegram_id ≠ rid := by
        rw [stepRow_id]
        exact hpne
      have hcur' : lookupSub rid (applyRowResult now cur (stepRow now deliver p)).subs
          = v := (lookupSub_applyRowResult_ne now rid cur _ hid).trans hcur
      refine ih f post _ _ (fun q hq => hpre q (List.mem_cons_of_mem p hq)) hf
        (fun q hq => hne q (List.mem_cons_of_mem p hq)) ?_ hcur'
      by_cases hb : (stepRow now deliver p).2.1 = true
      · rw [if_pos hb]
        exact hcur'
      · rw [if_neg hb]
        exact hcom

/-- C7 counterexample: two fetched rows; processing the first (an active
row whose stale `expired_sent`/`keys_deleted` reset is an uncaught store
write) fails.  The whole scan result is the untouched pre-scan store:
the second row — overdue past the grace period — is never processed,
although on its own the watcher step would mark it expired. -/
theorem C7_counterexample :
    scanFaulty 0 (fun _ _ => true) (fun u => decide (u = 1))
        ⟨[], [⟨1, some 0, some 30, some 10000, none, 0, 1, 1⟩,
              ⟨2, some (-20000), some 7, some (-10000), none, 0, 0, 0⟩], [], []⟩
      = ⟨[], [⟨1, some 0, some 30, some 10000, none, 0, 1, 1⟩,
              ⟨2, some (-20000), some 7, some (-10000), none, 0, 0, 0⟩], [], []⟩
    ∧ (stepRow 0 (fun _ _ => true)
        ⟨2, some (-20000), some 7, some (-10000), none, 0, 0, 0⟩).1.expired_sent = 1 := by
  exact ⟨rfl, rfl⟩

/-- C7 amended: only the send-wrapped notification writes and the
revocation branch are isolated per row; a store failure on an uncaught
write (the re-activation flag reset or the warn-hysteresis clear)
propagates to the watcher's outer handler and aborts the batch: with
distinct primary keys, every row after the first failing row is left
exactly as it was before the scan. -/
theorem C7_failure_aborts_batch_amended (now : Int) (deliver : Int → MsgKind → Bool)
    (storeFail : Int → Bool) (st : St) (pre post : List SubRow) (f : SubRow)
    (hsubs : st.subs = pre ++ f :: post)
    (hpre : ∀ p ∈ pre, (storeFail p.telegram_id && rowUncaughtWrite now p) = false)
    (hf : (storeFail f.telegram_id && rowUncaughtWrite now f) = true)
    (hnd : (st.subs.map (fun r => r.telegram_id)).Nodup) :
    ∀ r ∈ post,
      lookupSub r.telegram_id (scanFaulty now deliver storeFail st).subs
        = lookupSub r.telegram_id st.subs := by
  intro r hr
  have h0 : scanFaulty now deliver storeFail st
      = scanRowsFaulty now deliver storeFail st.subs st st := rfl
  rw [h0, hsubs]
  refine scanRowsFaulty_fail_lookup now deliver storeFail r.telegram_id _
    pre f post st st hpre hf ?_ (by rw [hsubs]) (by rw [hsubs])
  intro p hp heq
  rw [hsubs, List.map_append] at hnd
  have hdisj := (List.nodup_append.mp hnd).2.2
  have hmemr : r.telegram_id ∈ (f :: post).map (fun x => x.telegram_id) :=
    List.mem_map.mpr ⟨r, List.mem_cons_of_mem f hr, rfl⟩
  exact hdisj (List.mem_map.mpr ⟨p, hp, rfl⟩) (heq ▸ hmemr)

theorem C7_witness :
    lookupSub 2 (scanFaulty 0 (fun _ _ => true) (fun u => decide (u = 1))
        ⟨[], [⟨1, some 0, some 30, some 10000, none, 0, 1, 1⟩,
              ⟨2, some (-20000), some 7, some (-10000), none, 0, 0, 0⟩], [], []⟩).subs
      = lookupSub 2 [⟨1, some 0, some 30, some 10000, none, 0, 1, 1⟩,
              ⟨2, some (-20000), some 7, some (-10000), none, 0, 0, 0⟩] := by
  exact C7_failure_aborts_batch_amended 0 (fun _ _ => true) (fun u => decide (u = 1))
    ⟨[], [⟨1, some 0, some 30, some 10000, none, 0, 1, 1⟩,
          ⟨2, some (-20000), some 7, some (-10000), none, 0, 0, 0⟩], [], []⟩
    [] [⟨2, some (-20000), some 7, some (-10000), none, 0, 0, 0⟩]
    ⟨1, some 0, some 30, some 10000, none, 0, 1, 1⟩
    rfl (fun p hp => absurd hp (List.not_mem_nil p)) (by decide) (by decide)
    ⟨2, some (-20000), some 7, some (-10000), none, 0, 0, 0⟩
    (List.mem_singleton.mpr rfl)
